import Mathlib

/-!
# Variorum: backend resolution and lifecycle (`src/variorum/config_architecture.c`)

A shallow embedding of `variorum_enter`, `variorum_exit`, `variorum_detect_arch`,
`variorum_get_topology`, `variorum_init_func_ptrs` and `variorum_set_func_ptrs`.

* The process-wide `g_platform` and the function-local `static int
  init_variorum_get_topology` form the explicit `State`.
* Every C function is a `Prog α`: a function from the state to an `Outcome`, which
  is a normal return, a process termination through `exit`, or undefined behaviour
  (division by zero, signed overflow, null dereference, double free).
* Every call the code makes (the library, the vendor backends, the error handler,
  and `variorum_init_func_ptrs`) and every store through an output parameter is
  appended to a trace, so that "is invoked", "is not invoked", "writes" and
  "before" are statements about that trace.
* Conditional compilation (`#ifdef VARIORUM_WITH_*`, `#ifdef VARIORUM_LOG`) is a
  `Build` record of booleans.
* The behaviour of the external collaborators during one call is an `Env` record.
-/

namespace Variorum

/-! ## Data model -/

/-- Compile-time switches: `VARIORUM_WITH_INTEL`, `VARIORUM_WITH_AMD`,
`VARIORUM_WITH_IBM`, `VARIORUM_WITH_NVIDIA`, `VARIORUM_WITH_ARM`, `VARIORUM_LOG`. -/
structure Build where
  with_intel : Bool
  with_amd : Bool
  with_ibm : Bool
  with_nvidia : Bool
  with_arm : Bool
  log : Bool
deriving DecidableEq, Repr

/-- The vendors of the `#ifdef` blocks. -/
inductive Vendor where
  | intel | amd | ibm | nvidia | arm
deriving DecidableEq, Repr

/-- Whether a vendor is compiled in. -/
def Build.has (b : Build) : Vendor → Bool
  | .intel => b.with_intel
  | .amd => b.with_amd
  | .ibm => b.with_ibm
  | .nvidia => b.with_nvidia
  | .arm => b.with_arm

/-- The function-pointer members of `g_platform` that the source names (the
declaration of `struct platform` is in a header outside the sources at hand; these
are the twenty-one members assigned by `variorum_init_func_ptrs`). -/
inductive Slot where
  | variorum_print_power_limits
  | variorum_cap_socket_frequency
  | variorum_cap_best_effort_node_power_limit
  | variorum_cap_and_verify_node_power_limit
  | variorum_cap_gpu_power_ratio
  | variorum_cap_each_socket_power_limit
  | variorum_print_features
  | variorum_print_thermals
  | variorum_print_counters
  | variorum_print_clocks
  | variorum_print_power
  | variorum_enable_turbo
  | variorum_disable_turbo
  | variorum_print_turbo
  | variorum_poll_power
  | variorum_print_gpu_utilization
  | variorum_cap_each_core_frequency
  | variorum_monitoring
  | variorum_get_node_power_json
  | variorum_get_node_power_domain_info_json
  | variorum_print_available_frequencies
deriving DecidableEq, Repr

/-- The members of `struct platform` used by the source. Pointers are `Option`:
`none` is `NULL`. An architecture handle `some m` is a non-null `uint64_t *` whose
pointee is the model code `m`; a slot `some f` is the function pointer `f`. The
integer members are C `int`s. -/
structure Platform where
  hostname : List Nat
  num_sockets : Int
  total_cores : Int
  total_threads : Int
  num_cores_per_socket : Int
  num_threads_per_core : Int
  intel_arch : Option Nat
  amd_arch : Option Nat
  ibm_arch : Option Nat
  nvidia_arch : Option Nat
  arm_arch : Option Nat
  slots : Slot → Option Nat

/-- The architecture handle member of a vendor. -/
def Platform.arch (p : Platform) : Vendor → Option Nat
  | .intel => p.intel_arch
  | .amd => p.amd_arch
  | .ibm => p.ibm_arch
  | .nvidia => p.nvidia_arch
  | .arm => p.arm_arch

/-- The mutable program state: the global `g_platform`, the function-local
`static int init_variorum_get_topology` of `variorum_get_topology`, and the part of
the heap the code touches: `arch_live v` tells whether the handle member of vendor
`v` points to storage that is allocated (it is `false` for a `NULL` member and for
a member whose storage has been passed to `free`). -/
structure State where
  g_platform : Platform
  init_variorum_get_topology : Int
  arch_live : Vendor → Bool

/-- The state at process start: objects of static storage duration are
zero-initialised. -/
def State.initial : State where
  g_platform :=
    { hostname := []
      num_sockets := 0
      total_cores := 0
      total_threads := 0
      num_cores_per_socket := 0
      num_threads_per_core := 0
      intel_arch := none
      amd_arch := none
      ibm_arch := none
      nvidia_arch := none
      arm_arch := none
      slots := fun _ => none }
  init_variorum_get_topology := 0
  arch_live := fun _ => false

/-- The object types passed to `hwloc_get_nbobjs_by_type`. -/
inductive ObjType where
  | HWLOC_OBJ_SOCKET | HWLOC_OBJ_CORE | HWLOC_OBJ_PU
deriving DecidableEq, Repr

/-- The messages passed to `variorum_error_handler`. -/
inductive Msg where
  | no_architectures_detected
  | cannot_detect_architecture
  | cannot_set_function_pointers
deriving DecidableEq, Repr

/-- The lines written by `printf` under `VARIORUM_LOG`. -/
inductive LogLine where
  | log_variorum_enter
  | log_variorum_exit
  | intel_model (m : Nat)
  | ibm_model (m : Nat)
deriving DecidableEq, Repr

/-- One entry of the call trace. -/
inductive Event where
  | printf (l : LogLine)
  | fprintf_stderr
  | exit_call (code : Int)
  | gethostname
  | getenv_hostname
  | hwloc_topology_init
  | hwloc_topology_load
  | hwloc_get_nbobjs_by_type (t : ObjType)
  | hwloc_topology_destroy
  | variorum_init_func_ptrs
  | detect_arch (v : Vendor)
  | variorum_error_handler (m : Msg) (code : Int)
  | set_func_ptrs (v : Vendor)
  | init_msr
  | finalize_msr
  | free (v : Vendor) (ptr : Option Nat)
  | store_nsockets (v : Nat)
  | store_ncores (v : Nat)
  | store_nthreads (v : Nat)
deriving DecidableEq, Repr

/-- The kinds of undefined behaviour the model detects. -/
inductive UB where
  | div_by_zero
  | signed_overflow
  | null_deref
  | double_free
deriving DecidableEq, Repr

/-- Modelled from the spec: the vendor wiring steps `set_intel_func_ptrs`,
`set_ibm_func_ptrs`, `set_nvidia_func_ptrs` and `set_arm_func_ptrs` are defined in
the vendor backends, outside the sources at hand. Following the specification
("each vendor's wiring step may bind any subset of the slots it supports", and it
returns a status), a step assigns non-null function pointers to some slots of
`g_platform`, in order, and returns a status. -/
structure Wiring where
  status : Int
  binds : List (Slot × Nat)

/-- The behaviour of the external collaborators during one call of an entry
point: the results of `gethostname`, of the topology library, of the vendors'
detection, wiring, initialisation and finalisation functions. -/
structure Env where
  hostname : List Nat
  hwloc_topology_init : Int
  hwloc_topology_load : Int
  hwloc_get_nbobjs_by_type : ObjType → Int
  detect_intel_arch : Option Nat
  detect_ibm_arch : Option Nat
  detect_gpu_arch : Option Nat
  detect_arm_arch : Option Nat
  set_intel_func_ptrs : Wiring
  init_msr : Int
  set_ibm_func_ptrs : Wiring
  set_nvidia_func_ptrs : Wiring
  set_arm_func_ptrs : Wiring
  finalize_msr : Int

/-- The error codes of `variorum_error.h` that the source uses (the header is
outside the sources at hand, so their values are parameters). -/
structure ErrCodes where
  VARIORUM_ERROR_RUNTIME : Int
  VARIORUM_ERROR_UNSUPPORTED_ARCH : Int

/-- The three `unsigned *` parameters of `variorum_get_topology`: `none` is a
`NULL` argument, `some v` a pointer to an `unsigned` currently holding `v`. -/
structure OutArgs where
  nsockets : Option Nat
  ncores : Option Nat
  nthreads : Option Nat
deriving DecidableEq, Repr

/-! ## Outcomes and sequencing -/

/-- How a call ends: it returns a value, the process is terminated by `exit`, or
the behaviour is undefined. Each carries the state reached and the calls made. -/
inductive Outcome (α : Type) where
  | ret (val : α) (st : State) (tr : List Event)
  | exited (code : Int) (st : State) (tr : List Event)
  | undef (why : UB) (st : State) (tr : List Event)

/-- The calls made. -/
def Outcome.trace {α : Type} : Outcome α → List Event
  | .ret _ _ tr => tr
  | .exited _ _ tr => tr
  | .undef _ _ tr => tr

/-- The state reached. -/
def Outcome.state {α : Type} : Outcome α → State
  | .ret _ st _ => st
  | .exited _ st _ => st
  | .undef _ st _ => st

/-- The returned value, when the call returns. -/
def Outcome.val? {α : Type} : Outcome α → Option α
  | .ret a _ _ => some a
  | .exited _ _ _ => none
  | .undef _ _ _ => none

/-- Put the calls made earlier in front. -/
def Outcome.prepend {α : Type} (pre : List Event) : Outcome α → Outcome α
  | .ret a st tr => .ret a st (pre ++ tr)
  | .exited c st tr => .exited c st (pre ++ tr)
  | .undef u st tr => .undef u st (pre ++ tr)

/-- A C function body: from the state to an outcome. -/
def Prog (α : Type) : Type := State → Outcome α

/-- Return without effect. -/
def Prog.pure {α : Type} (a : α) : Prog α := fun st => .ret a st []

/-- Sequencing: the second part runs only if the first returns. -/
def Prog.bind {α β : Type} (m : Prog α) (f : α → Prog β) : Prog β := fun st =>
  match m st with
  | .ret a st1 tr => (f a st1).prepend tr
  | .exited c st1 tr => .exited c st1 tr
  | .undef u st1 tr => .undef u st1 tr

instance : Monad Prog where
  pure := Prog.pure
  bind := Prog.bind

/-- Record a call. -/
def call (e : Event) : Prog Unit := fun st => .ret () st [e]

/-- Read `g_platform`. -/
def getPlatform : Prog Platform := fun st => .ret st.g_platform st []

/-- Read the static flag of `variorum_get_topology`. -/
def getInit : Prog Int := fun st => .ret st.init_variorum_get_topology st []

/-- Write to `g_platform`. -/
def setPlatform (f : Platform → Platform) : Prog Unit :=
  fun st => .ret () { st with g_platform := f st.g_platform } []

/-- Write the static flag of `variorum_get_topology`. -/
def setInit (v : Int) : Prog Unit :=
  fun st => .ret () { st with init_variorum_get_topology := v } []

/-- Read whether the storage behind the handle member of a vendor is allocated. -/
def getLive (v : Vendor) : Prog Bool := fun st => .ret (st.arch_live v) st []

/-- Record whether the storage behind the handle member of a vendor is allocated. -/
def setLive (v : Vendor) (live : Bool) : Prog Unit :=
  fun st => .ret () { st with arch_live := Function.update st.arch_live v live } []

/-- The library function `exit`: the process terminates. -/
def c_exit (code : Int) : Prog Unit := fun st => .exited code st [.exit_call code]

/-- Undefined behaviour. -/
def c_undef {α : Type} (why : UB) : Prog α := fun st => .undef why st []

/-- The statement `if (c) { body }` without an `else`. -/
def c_if (c : Prop) [Decidable c] (body : Prog Unit) : Prog Unit :=
  if c then body else Prog.pure ()

/-! ## C arithmetic on `int` and `unsigned` (32 bits) -/

/-- The value of `INT_MIN`. -/
def INT_MIN : Int := -2147483648

/-- The value of `INT_MAX`. -/
def INT_MAX : Int := 2147483647

/-- The values of type `int`. -/
def IsInt (x : Int) : Prop := INT_MIN ≤ x ∧ x ≤ INT_MAX

instance (x : Int) : Decidable (IsInt x) := by unfold IsInt; infer_instance

/-- C `a / b` on `int`: truncation towards zero; undefined for a zero divisor and
for `INT_MIN / -1`. -/
def c_div (a b : Int) : Prog Int :=
  if b = 0 then c_undef .div_by_zero
  else if a = INT_MIN ∧ b = -1 then c_undef .signed_overflow
  else Prog.pure (Int.tdiv a b)

/-- C `a % b` on `int`: the remainder of the truncating division; undefined where
`a / b` is. -/
def c_mod (a b : Int) : Prog Int :=
  if b = 0 then c_undef .div_by_zero
  else if a = INT_MIN ∧ b = -1 then c_undef .signed_overflow
  else Prog.pure (Int.tmod a b)

/-- Conversion of an `int` to `unsigned`: reduction modulo `2^32`. -/
def to_unsigned (x : Int) : Nat := (x % 4294967296).toNat

/-- The assignment `*p = v` under the guard `if (p != NULL)`. -/
def store_if_nonnull (p : Option Nat) (v : Nat) : Option Nat :=
  match p with
  | none => none
  | some _ => some v

/-! ## The functions of `config_architecture.c` -/

/-- Source function `variorum_get_topology` (lines 149-280). -/
def variorum_get_topology (env : Env) (out : OutArgs) : Prog OutArgs := do
  call .gethostname
  setPlatform fun p => { p with hostname := env.hostname }
  c_if ((← getInit) = 0) do
    setInit 1
    call .hwloc_topology_init
    let rc := env.hwloc_topology_init
    c_if (rc ≠ 0) do
      c_exit (-1)
    call .hwloc_topology_load
    let rc := env.hwloc_topology_load
    c_if (rc ≠ 0) do
      c_exit (-1)
    call (.hwloc_get_nbobjs_by_type .HWLOC_OBJ_SOCKET)
    setPlatform fun p =>
      { p with num_sockets := env.hwloc_get_nbobjs_by_type .HWLOC_OBJ_SOCKET }
    c_if ((← getPlatform).num_sockets = -1) do
      call .fprintf_stderr
      c_exit (-1)
    c_if ((← getPlatform).num_sockets = 0) do
      call .fprintf_stderr
      c_exit (-1)
    call (.hwloc_get_nbobjs_by_type .HWLOC_OBJ_CORE)
    setPlatform fun p =>
      { p with total_cores := env.hwloc_get_nbobjs_by_type .HWLOC_OBJ_CORE }
    c_if ((← getPlatform).total_cores = -1) do
      call .fprintf_stderr
      c_exit (-1)
    c_if ((← getPlatform).total_cores = 0) do
      call .fprintf_stderr
      c_exit (-1)
    call (.hwloc_get_nbobjs_by_type .HWLOC_OBJ_PU)
    setPlatform fun p =>
      { p with total_threads := env.hwloc_get_nbobjs_by_type .HWLOC_OBJ_PU }
    c_if ((← getPlatform).total_threads = -1) do
      call .fprintf_stderr
      c_exit (-1)
    c_if ((← getPlatform).total_threads = 0) do
      call .fprintf_stderr
      c_exit (-1)
    let q ← c_div (← getPlatform).total_cores (← getPlatform).num_sockets
    setPlatform fun p => { p with num_cores_per_socket := q }
    c_if ((← c_mod (← getPlatform).total_cores (← getPlatform).num_sockets) ≠ 0) do
      call .fprintf_stderr
      c_exit (-1)
    let q ← c_div (← getPlatform).total_threads (← getPlatform).total_cores
    setPlatform fun p => { p with num_threads_per_core := q }
    c_if ((← c_mod (← getPlatform).total_threads (← getPlatform).total_cores) ≠ 0) do
      call .fprintf_stderr
      c_exit (-1)
    call .hwloc_topology_destroy
  let p ← getPlatform
  c_if (out.nsockets ≠ none) do
    call (.store_nsockets (to_unsigned p.num_sockets))
  c_if (out.ncores ≠ none) do
    call (.store_ncores (to_unsigned p.total_cores))
  c_if (out.nthreads ≠ none) do
    call (.store_nthreads (to_unsigned p.total_threads))
  return { nsockets := store_if_nonnull out.nsockets (to_unsigned p.num_sockets)
           ncores := store_if_nonnull out.ncores (to_unsigned p.total_cores)
           nthreads := store_if_nonnull out.nthreads (to_unsigned p.total_threads) }

/-- The assignment `g_platform.<slot> = v`. -/
def set_slot (s : Slot) (v : Option Nat) : Prog Unit :=
  setPlatform fun p => { p with slots := Function.update p.slots s v }

/-- Source function `variorum_init_func_ptrs` (lines 282-305). -/
def variorum_init_func_ptrs : Prog Unit := do
  set_slot .variorum_print_power_limits none
  set_slot .variorum_cap_socket_frequency none
  set_slot .variorum_cap_best_effort_node_power_limit none
  set_slot .variorum_cap_and_verify_node_power_limit none
  set_slot .variorum_cap_gpu_power_ratio none
  set_slot .variorum_cap_each_socket_power_limit none
  set_slot .variorum_print_features none
  set_slot .variorum_print_thermals none
  set_slot .variorum_print_counters none
  set_slot .variorum_print_clocks none
  set_slot .variorum_print_power none
  set_slot .variorum_enable_turbo none
  set_slot .variorum_disable_turbo none
  set_slot .variorum_print_turbo none
  set_slot .variorum_poll_power none
  set_slot .variorum_print_gpu_utilization none
  set_slot .variorum_cap_each_core_frequency none
  set_slot .variorum_monitoring none
  set_slot .variorum_get_node_power_json none
  set_slot .variorum_get_node_power_domain_info_json none
  set_slot .variorum_print_available_frequencies none

/-- The table after a wiring step: its assignments applied in order. -/
def apply_binds (binds : List (Slot × Nat)) (t : Slot → Option Nat) : Slot → Option Nat :=
  binds.foldl (fun t sf => Function.update t sf.1 (some sf.2)) t

/-- A call of a vendor's wiring step (`set_intel_func_ptrs`, `set_ibm_func_ptrs`,
`set_nvidia_func_ptrs`, `set_arm_func_ptrs`). -/
def vendor_set_func_ptrs (v : Vendor) (w : Wiring) : Prog Int := do
  call (.set_func_ptrs v)
  setPlatform fun p => { p with slots := apply_binds w.binds p.slots }
  return w.status

/-- A call of `init_msr`. -/
def init_msr (env : Env) : Prog Int := do
  call .init_msr
  return env.init_msr

/-- A call of `finalize_msr`. -/
def finalize_msr (env : Env) : Prog Int := do
  call .finalize_msr
  return env.finalize_msr

/-- Modelled from the spec: the detection functions `detect_intel_arch`,
`detect_ibm_arch`, `detect_gpu_arch` and `detect_arm_arch` are defined in the
vendor backends, outside the sources at hand. Following the specification (a
detection "returns either an owned ArchitectureHandle or an explicit empty
result"), a call returns `NULL` or a pointer to storage of its own, freshly
allocated; the caller stores the result in the handle member of the vendor. -/
def vendor_detect_arch (v : Vendor) (result : Option Nat) : Prog (Option Nat) := do
  call (.detect_arch v)
  setLive v result.isSome
  return result

/-- The expression `*p` for an architecture handle `p`: undefined for `NULL`. In
`variorum_detect_arch` the handle read is the one the detection call of the same
`#ifdef` has just returned, so a non-null one points to allocated storage. -/
def deref (p : Option Nat) : Prog Nat :=
  match p with
  | none => c_undef .null_deref
  | some m => Prog.pure m

/-- Source function `variorum_set_func_ptrs` (lines 307-329). -/
def variorum_set_func_ptrs (b : Build) (env : Env) : Prog Int := do
  let mut err : Int := 0
  if b.with_intel then
    err ← vendor_set_func_ptrs .intel env.set_intel_func_ptrs
    if err ≠ 0 then
      return err
    err ← init_msr env
  if b.with_ibm then
    err ← vendor_set_func_ptrs .ibm env.set_ibm_func_ptrs
  if b.with_nvidia then
    err ← vendor_set_func_ptrs .nvidia env.set_nvidia_func_ptrs
  if b.with_arm then
    err ← vendor_set_func_ptrs .arm env.set_arm_func_ptrs
  return err

/-- Source function `variorum_detect_arch` (lines 108-146). The AMD block holds
only a comment. -/
def variorum_detect_arch (b : Build) (codes : ErrCodes) (env : Env) : Prog Int := do
  c_if b.with_intel do
    let h ← vendor_detect_arch .intel env.detect_intel_arch
    setPlatform fun p => { p with intel_arch := h }
  c_if b.with_amd do
    pure ()
  c_if b.with_ibm do
    let h ← vendor_detect_arch .ibm env.detect_ibm_arch
    setPlatform fun p => { p with ibm_arch := h }
  c_if b.with_nvidia do
    let h ← vendor_detect_arch .nvidia env.detect_gpu_arch
    setPlatform fun p => { p with nvidia_arch := h }
  c_if b.with_arm do
    let h ← vendor_detect_arch .arm env.detect_arm_arch
    setPlatform fun p => { p with arm_arch := h }
  c_if (b.log ∧ b.with_intel) do
    let m ← deref (← getPlatform).intel_arch
    call (.printf (.intel_model m))
  c_if (b.log ∧ b.with_ibm) do
    let m ← deref (← getPlatform).ibm_arch
    call (.printf (.ibm_model m))
  let p ← getPlatform
  if p.intel_arch = none ∧ p.amd_arch = none ∧ p.ibm_arch = none ∧
      p.nvidia_arch = none ∧ p.arm_arch = none then
    call .getenv_hostname
    call (.variorum_error_handler .no_architectures_detected codes.VARIORUM_ERROR_RUNTIME)
    return codes.VARIORUM_ERROR_UNSUPPORTED_ARCH
  return 0

/-- Source function `variorum_enter` (lines 36-68). The call of
`variorum_init_func_ptrs` is recorded in the trace before its body runs. -/
def variorum_enter (b : Build) (codes : ErrCodes) (env : Env) : Prog Int := do
  let mut err : Int := 0
  c_if b.log do
    call (.printf .log_variorum_enter)
  call .variorum_init_func_ptrs
  variorum_init_func_ptrs
  let _ ← variorum_get_topology env { nsockets := none, ncores := none, nthreads := none }
  err ← variorum_detect_arch b codes env
  if err ≠ 0 then
    call .getenv_hostname
    call (.variorum_error_handler .cannot_detect_architecture err)
    return err
  err ← variorum_set_func_ptrs b env
  if err ≠ 0 then
    call .getenv_hostname
    call (.variorum_error_handler .cannot_set_function_pointers err)
    return err
  return err

/-- The statement `free(g_platform.<vendor>_arch)`. `free(NULL)` does nothing.
Passing a pointer whose storage is allocated releases the storage; the member
itself keeps the pointer (the source does not assign `NULL`). Passing a pointer
whose storage was released before is undefined behaviour (a double free). -/
def free_arch (v : Vendor) : Prog Unit := do
  let p := (← getPlatform).arch v
  call (.free v p)
  c_if (p ≠ none ∧ (← getLive v) = false) do
    c_undef .double_free
  setLive v false

/-- Source function `variorum_exit` (lines 70-106). -/
def variorum_exit (b : Build) (env : Env) : Prog Int := do
  let mut err : Int := 0
  c_if b.log do
    call (.printf .log_variorum_exit)
  if b.with_intel then
    err ← finalize_msr env
    if err ≠ 0 then
      return err
  c_if b.with_intel do
    free_arch .intel
  c_if b.with_amd do
    free_arch .amd
  c_if b.with_ibm do
    free_arch .ibm
  c_if b.with_nvidia do
    free_arch .nvidia
  c_if b.with_arm do
    free_arch .arm
  return err

/-! ## Auxiliary definitions for the statements -/

/-- The topology source answers with a usable topology: initialisation and
loading succeed, no count is `-1` or `0`, and both ratios are exact. -/
def Env.topology_ok (env : Env) : Prop :=
  env.hwloc_topology_init = 0 ∧ env.hwloc_topology_load = 0 ∧
  env.hwloc_get_nbobjs_by_type .HWLOC_OBJ_SOCKET ≠ -1 ∧
  env.hwloc_get_nbobjs_by_type .HWLOC_OBJ_SOCKET ≠ 0 ∧
  env.hwloc_get_nbobjs_by_type .HWLOC_OBJ_CORE ≠ -1 ∧
  env.hwloc_get_nbobjs_by_type .HWLOC_OBJ_CORE ≠ 0 ∧
  env.hwloc_get_nbobjs_by_type .HWLOC_OBJ_PU ≠ -1 ∧
  env.hwloc_get_nbobjs_by_type .HWLOC_OBJ_PU ≠ 0 ∧
  Int.tmod (env.hwloc_get_nbobjs_by_type .HWLOC_OBJ_CORE)
    (env.hwloc_get_nbobjs_by_type .HWLOC_OBJ_SOCKET) = 0 ∧
  Int.tmod (env.hwloc_get_nbobjs_by_type .HWLOC_OBJ_PU)
    (env.hwloc_get_nbobjs_by_type .HWLOC_OBJ_CORE) = 0

instance (env : Env) : Decidable env.topology_ok := by
  unfold Env.topology_ok; infer_instance

/-- The stores through the non-null output parameters, in source order. -/
def out_stores (out : OutArgs) (p : Platform) : List Event :=
  (if out.nsockets ≠ none then [Event.store_nsockets (to_unsigned p.num_sockets)] else []) ++
  (if out.ncores ≠ none then [Event.store_ncores (to_unsigned p.total_cores)] else []) ++
  (if out.nthreads ≠ none then [Event.store_nthreads (to_unsigned p.total_threads)] else [])

/-- The output parameters after the stores. -/
def out_after (out : OutArgs) (p : Platform) : OutArgs :=
  { nsockets := store_if_nonnull out.nsockets (to_unsigned p.num_sockets)
    ncores := store_if_nonnull out.ncores (to_unsigned p.total_cores)
    nthreads := store_if_nonnull out.nthreads (to_unsigned p.total_threads) }

/-- `g_platform` after a successful first probe. -/
def probed (env : Env) (p : Platform) : Platform :=
  { p with
    hostname := env.hostname
    num_sockets := env.hwloc_get_nbobjs_by_type .HWLOC_OBJ_SOCKET
    total_cores := env.hwloc_get_nbobjs_by_type .HWLOC_OBJ_CORE
    total_threads := env.hwloc_get_nbobjs_by_type .HWLOC_OBJ_PU
    num_cores_per_socket :=
      Int.tdiv (env.hwloc_get_nbobjs_by_type .HWLOC_OBJ_CORE)
        (env.hwloc_get_nbobjs_by_type .HWLOC_OBJ_SOCKET)
    num_threads_per_core :=
      Int.tdiv (env.hwloc_get_nbobjs_by_type .HWLOC_OBJ_PU)
        (env.hwloc_get_nbobjs_by_type .HWLOC_OBJ_CORE) }

/-- Whether an event is a call into the topology source. -/
def Event.is_hwloc : Event → Bool
  | .hwloc_topology_init => true
  | .hwloc_topology_load => true
  | .hwloc_get_nbobjs_by_type _ => true
  | .hwloc_topology_destroy => true
  | _ => false

/-- Whether an event is a store through an output parameter. -/
def Event.is_store : Event → Bool
  | .store_nsockets _ => true
  | .store_ncores _ => true
  | .store_nthreads _ => true
  | _ => false

/-- The calls of a successful first probe, before the stores. -/
def probe_calls : List Event :=
  [.gethostname, .hwloc_topology_init, .hwloc_topology_load,
   .hwloc_get_nbobjs_by_type .HWLOC_OBJ_SOCKET, .hwloc_get_nbobjs_by_type .HWLOC_OBJ_CORE,
   .hwloc_get_nbobjs_by_type .HWLOC_OBJ_PU, .hwloc_topology_destroy]

/-- The cached descriptor: the five integer members of `g_platform`. -/
def Platform.descriptor (p : Platform) : Int × Int × Int × Int × Int :=
  (p.num_sockets, p.total_cores, p.total_threads, p.num_cores_per_socket,
    p.num_threads_per_core)

/-- The states reached from `st1` in the rest of the process: by any number of
returning calls, in any order, of the six functions of the file
(`variorum_get_topology`, `variorum_enter`, `variorum_exit`,
`variorum_detect_arch`, `variorum_set_func_ptrs`, `variorum_init_func_ptrs`), with
any arguments and any answers of the collaborators. The calls of
`variorum_detect_arch` and `variorum_set_func_ptrs` include those that finish the
`variorum_enter` inside which `st1` was reached. -/
inductive LaterCalls (st1 : State) : State → Prop where
  | first : LaterCalls st1 st1
  | by_get_topology {st st2 : State} (env : Env) (out o : OutArgs) (tr : List Event) :
      LaterCalls st1 st → variorum_get_topology env out st = .ret o st2 tr →
      LaterCalls st1 st2
  | by_enter {st st2 : State} (b : Build) (codes : ErrCodes) (env : Env) (r : Int)
      (tr : List Event) :
      LaterCalls st1 st → variorum_enter b codes env st = .ret r st2 tr →
      LaterCalls st1 st2
  | by_exit {st st2 : State} (b : Build) (env : Env) (r : Int) (tr : List Event) :
      LaterCalls st1 st → variorum_exit b env st = .ret r st2 tr →
      LaterCalls st1 st2
  | by_detect_arch {st st2 : State} (b : Build) (codes : ErrCodes) (env : Env) (r : Int)
      (tr : List Event) :
      LaterCalls st1 st → variorum_detect_arch b codes env st = .ret r st2 tr →
      LaterCalls st1 st2
  | by_set_func_ptrs {st st2 : State} (b : Build) (env : Env) (r : Int) (tr : List Event) :
      LaterCalls st1 st → variorum_set_func_ptrs b env st = .ret r st2 tr →
      LaterCalls st1 st2
  | by_init_func_ptrs {st st2 : State} (tr : List Event) :
      LaterCalls st1 st → variorum_init_func_ptrs st = .ret () st2 tr →
      LaterCalls st1 st2

/-- The state with every slot of the dispatch table `NULL`. -/
def State.reset_slots (st : State) : State :=
  { st with g_platform := { st.g_platform with slots := fun _ => none } }

/-- The result of a vendor's detection function. There is none for AMD: the call
is commented out in the source. -/
def Env.detect (env : Env) : Vendor → Option Nat
  | .intel => env.detect_intel_arch
  | .amd => none
  | .ibm => env.detect_ibm_arch
  | .nvidia => env.detect_gpu_arch
  | .arm => env.detect_arm_arch

/-- The wiring step of a vendor. There is none for AMD. -/
def Env.wiring (env : Env) : Vendor → Wiring
  | .intel => env.set_intel_func_ptrs
  | .amd => { status := 0, binds := [] }
  | .ibm => env.set_ibm_func_ptrs
  | .nvidia => env.set_nvidia_func_ptrs
  | .arm => env.set_arm_func_ptrs

/-- Whether an event is a call of a vendor wiring step or of `init_msr`. -/
def Event.is_wiring : Event → Bool
  | .set_func_ptrs _ => true
  | .init_msr => true
  | _ => false

/-- Whether an event is a call of `free`. -/
def Event.is_free : Event → Bool
  | .free _ _ => true
  | _ => false

/-- Whether an event is the call `free(g_platform.<v>_arch)`. -/
def Event.is_free_of (v : Vendor) : Event → Bool
  | .free w _ => decide (w = v)
  | _ => false

/-- The handle members that no code of the build assigns are `NULL`: those of the
vendors that are not compiled in, and `amd_arch`. It holds at process start, where
`g_platform` is zero-initialised, and the functions of this file keep it. -/
def Build.unassigned_null (b : Build) (p : Platform) : Prop :=
  (b.with_intel = false → p.intel_arch = none) ∧ p.amd_arch = none ∧
  (b.with_ibm = false → p.ibm_arch = none) ∧
  (b.with_nvidia = false → p.nvidia_arch = none) ∧
  (b.with_arm = false → p.arm_arch = none)

/-- Some compiled vendor's detection function returns a handle. -/
def Build.detects (b : Build) (env : Env) : Prop :=
  ∃ v, b.has v = true ∧ env.detect v ≠ none

/-- The `printf` of a model code under `VARIORUM_LOG` meets a `NULL` handle. -/
def Build.log_null_deref (b : Build) (env : Env) : Prop :=
  b.log = true ∧ ((b.with_intel = true ∧ env.detect_intel_arch = none) ∨
    (b.with_ibm = true ∧ env.detect_ibm_arch = none))

instance (b : Build) (env : Env) : Decidable (b.log_null_deref env) := by
  unfold Build.log_null_deref; infer_instance

/-- The calls `free(g_platform.<vendor>_arch)` of `variorum_exit`, in source order. -/
def exit_frees (b : Build) (p : Platform) : List Event :=
  (if b.with_intel then [Event.free .intel p.intel_arch] else []) ++
  (if b.with_amd then [Event.free .amd p.amd_arch] else []) ++
  (if b.with_ibm then [Event.free .ibm p.ibm_arch] else []) ++
  (if b.with_nvidia then [Event.free .nvidia p.nvidia_arch] else []) ++
  (if b.with_arm then [Event.free .arm p.arm_arch] else [])

/-- The table after the wiring steps of IBM, NVIDIA and ARM, where compiled in. -/
def wire_later (b : Build) (env : Env) (t : Slot → Option Nat) : Slot → Option Nat :=
  let t1 := if b.with_ibm then apply_binds env.set_ibm_func_ptrs.binds t else t
  let t2 := if b.with_nvidia then apply_binds env.set_nvidia_func_ptrs.binds t1 else t1
  if b.with_arm then apply_binds env.set_arm_func_ptrs.binds t2 else t2

/-- The table after `variorum_set_func_ptrs`. -/
def set_func_ptrs_slots (b : Build) (env : Env) (t : Slot → Option Nat) : Slot → Option Nat :=
  if b.with_intel then
    if env.set_intel_func_ptrs.status ≠ 0 then apply_binds env.set_intel_func_ptrs.binds t
    else wire_later b env (apply_binds env.set_intel_func_ptrs.binds t)
  else wire_later b env t

/-- The calls of IBM, NVIDIA and ARM wiring steps made by `variorum_set_func_ptrs`. -/
def wire_later_calls (b : Build) : List Event :=
  (if b.with_ibm then [Event.set_func_ptrs .ibm] else []) ++
  (if b.with_nvidia then [Event.set_func_ptrs .nvidia] else []) ++
  (if b.with_arm then [Event.set_func_ptrs .arm] else [])

/-- The calls made by `variorum_set_func_ptrs`. -/
def set_func_ptrs_calls (b : Build) (env : Env) : List Event :=
  if b.with_intel then
    if env.set_intel_func_ptrs.status ≠ 0 then [Event.set_func_ptrs .intel]
    else [Event.set_func_ptrs .intel, Event.init_msr] ++ wire_later_calls b
  else wire_later_calls b

/-- The value returned by `variorum_set_func_ptrs`: the status of the Intel wiring
step when it fails, otherwise the status of the last step made. -/
def set_func_ptrs_result (b : Build) (env : Env) : Int :=
  if b.with_intel = true ∧ env.set_intel_func_ptrs.status ≠ 0 then
    env.set_intel_func_ptrs.status
  else if b.with_arm then env.set_arm_func_ptrs.status
  else if b.with_nvidia then env.set_nvidia_func_ptrs.status
  else if b.with_ibm then env.set_ibm_func_ptrs.status
  else if b.with_intel then env.init_msr
  else 0

/-- The handle members after the detection calls of `variorum_detect_arch`. -/
def detected (b : Build) (env : Env) (p : Platform) : Platform :=
  { p with
    intel_arch := if b.with_intel then env.detect_intel_arch else p.intel_arch
    ibm_arch := if b.with_ibm then env.detect_ibm_arch else p.ibm_arch
    nvidia_arch := if b.with_nvidia then env.detect_gpu_arch else p.nvidia_arch
    arm_arch := if b.with_arm then env.detect_arm_arch else p.arm_arch }

/-- The allocation flags after the detection calls of `variorum_detect_arch`. -/
def detected_live (b : Build) (env : Env) (live : Vendor → Bool) : Vendor → Bool :=
  let l1 := if b.with_intel then Function.update live .intel env.detect_intel_arch.isSome
    else live
  let l2 := if b.with_ibm then Function.update l1 .ibm env.detect_ibm_arch.isSome else l1
  let l3 := if b.with_nvidia then Function.update l2 .nvidia env.detect_gpu_arch.isSome else l2
  if b.with_arm then Function.update l3 .arm env.detect_arm_arch.isSome else l3

/-- The allocation flags after the calls of `free` of `variorum_exit`: the storage
behind the handle of every compiled vendor is released. -/
def released (b : Build) (live : Vendor → Bool) : Vendor → Bool :=
  fun v => !b.has v && live v

/-- No handle that `variorum_exit` will pass to `free` has been released already:
the handle member of every compiled vendor is `NULL` or points to allocated
storage. It holds at process start and after every `variorum_enter` that returns
(for `amd_arch`, which no code assigns, as far as it held before); it fails after
a `variorum_exit` that released a handle. -/
def Build.handles_ok (b : Build) (st : State) : Prop :=
  (b.with_intel = true → st.g_platform.intel_arch ≠ none → st.arch_live .intel = true) ∧
  (b.with_amd = true → st.g_platform.amd_arch ≠ none → st.arch_live .amd = true) ∧
  (b.with_ibm = true → st.g_platform.ibm_arch ≠ none → st.arch_live .ibm = true) ∧
  (b.with_nvidia = true → st.g_platform.nvidia_arch ≠ none → st.arch_live .nvidia = true) ∧
  (b.with_arm = true → st.g_platform.arm_arch ≠ none → st.arch_live .arm = true)

instance (b : Build) (st : State) : Decidable (b.handles_ok st) := by
  unfold Build.handles_ok; infer_instance

/-- The test of `variorum_detect_arch`: all five handle members are `NULL`. -/
def Platform.no_arch (p : Platform) : Prop :=
  p.intel_arch = none ∧ p.amd_arch = none ∧ p.ibm_arch = none ∧
    p.nvidia_arch = none ∧ p.arm_arch = none

instance (p : Platform) : Decidable p.no_arch := by
  unfold Platform.no_arch; infer_instance

/-- The calls of the vendors' detection functions, in source order. -/
def detect_calls (b : Build) : List Event :=
  (if b.with_intel then [Event.detect_arch .intel] else []) ++
  (if b.with_ibm then [Event.detect_arch .ibm] else []) ++
  (if b.with_nvidia then [Event.detect_arch .nvidia] else []) ++
  (if b.with_arm then [Event.detect_arch .arm] else [])

/-- The calls made by `variorum_detect_arch` up to a `printf` that dereferences a
`NULL` handle. -/
def detect_arch_calls_undef (b : Build) (env : Env) : List Event :=
  detect_calls b ++
  (if b.with_intel = true ∧ env.detect_intel_arch ≠ none then
    [Event.printf (.intel_model (env.detect_intel_arch.getD 0))] else [])

/-- The calls made by `variorum_detect_arch` when it returns, on `g_platform = p`. -/
def detect_arch_calls (b : Build) (codes : ErrCodes) (env : Env) (p : Platform) : List Event :=
  detect_calls b ++
  (if b.log = true ∧ b.with_intel = true then
    [Event.printf (.intel_model (env.detect_intel_arch.getD 0))] else []) ++
  (if b.log = true ∧ b.with_ibm = true then
    [Event.printf (.ibm_model (env.detect_ibm_arch.getD 0))] else []) ++
  (if (detected b env p).no_arch then
    [Event.getenv_hostname,
     Event.variorum_error_handler .no_architectures_detected codes.VARIORUM_ERROR_RUNTIME]
   else [])

/-- The value returned by `variorum_detect_arch`, on `g_platform = p`. -/
def detect_arch_result (b : Build) (codes : ErrCodes) (env : Env) (p : Platform) : Int :=
  if (detected b env p).no_arch then codes.VARIORUM_ERROR_UNSUPPORTED_ARCH else 0

/-- The calls of `variorum_enter` before the probe. -/
def enter_head (b : Build) : List Event :=
  (if b.log then [Event.printf .log_variorum_enter] else []) ++ [Event.variorum_init_func_ptrs]

/-- The calls of `variorum_exit` before the calls of `free`. -/
def exit_head (b : Build) : List Event :=
  (if b.log then [Event.printf .log_variorum_exit] else []) ++
  (if b.with_intel then [Event.finalize_msr] else [])

/-! ## Concrete inputs -/

/-- Collaborators that answer with the given topology counts and otherwise
succeed with nothing to report: no vendor detects, no wiring binds a slot. -/
def Env.of_counts (sockets cores threads : Int) : Env where
  hostname := []
  hwloc_topology_init := 0
  hwloc_topology_load := 0
  hwloc_get_nbobjs_by_type := fun t =>
    match t with
    | .HWLOC_OBJ_SOCKET => sockets
    | .HWLOC_OBJ_CORE => cores
    | .HWLOC_OBJ_PU => threads
  detect_intel_arch := none
  detect_ibm_arch := none
  detect_gpu_arch := none
  detect_arm_arch := none
  set_intel_func_ptrs := { status := 0, binds := [] }
  init_msr := 0
  set_ibm_func_ptrs := { status := 0, binds := [] }
  set_nvidia_func_ptrs := { status := 0, binds := [] }
  set_arm_func_ptrs := { status := 0, binds := [] }
  finalize_msr := 0

/-- Three non-null output parameters, each pointing to a zero. -/
def OutArgs.all : OutArgs := { nsockets := some 0, ncores := some 0, nthreads := some 0 }

/-- Three `NULL` output parameters. -/
def OutArgs.null : OutArgs := { nsockets := none, ncores := none, nthreads := none }

/-- Error codes for the concrete runs (any values do; the header fixes them). -/
def ErrCodes.sample : ErrCodes :=
  { VARIORUM_ERROR_RUNTIME := -1, VARIORUM_ERROR_UNSUPPORTED_ARCH := -3 }

/-- Only Intel, no logging. -/
def Build.intel_only : Build :=
  { with_intel := true, with_amd := false, with_ibm := false, with_nvidia := false,
    with_arm := false, log := false }

/-- Intel and IBM, no logging. -/
def Build.intel_ibm : Build :=
  { with_intel := true, with_amd := false, with_ibm := true, with_nvidia := false,
    with_arm := false, log := false }

/-- Only Intel, with `VARIORUM_LOG`. -/
def Build.intel_log : Build :=
  { with_intel := true, with_amd := false, with_ibm := false, with_nvidia := false,
    with_arm := false, log := true }

/-- Intel is detected and every step succeeds; the Intel wiring step binds
`variorum_print_power` and `variorum_print_clocks`. -/
def Env.intel_ok : Env :=
  { Env.of_counts 2 32 64 with
    detect_intel_arch := some 6
    set_intel_func_ptrs :=
      { status := 0, binds := [(.variorum_print_power, 1), (.variorum_print_clocks, 2)] } }

/-- Intel and IBM are detected and wired; `init_msr` fails with code 7. -/
def Env.init_msr_fails : Env :=
  { Env.of_counts 2 32 64 with
    detect_intel_arch := some 6, detect_ibm_arch := some 9, init_msr := 7 }

/-- Intel is detected; its wiring step fails with code 5. -/
def Env.intel_wiring_fails : Env :=
  { Env.of_counts 2 32 64 with
    detect_intel_arch := some 6
    set_intel_func_ptrs := { status := 5, binds := [(.variorum_print_power, 1)] } }

/-- Every step succeeds but `finalize_msr`, which fails with code 4. -/
def Env.finalize_fails : Env :=
  { Env.of_counts 2 32 64 with finalize_msr := 4 }

/-- As `Env.intel_ok`, but the topology source answers 4 sockets, 8 cores and 8
threads. -/
def Env.intel_ok_4_8_8 : Env :=
  { Env.intel_ok with
    hwloc_get_nbobjs_by_type := (Env.of_counts 4 8 8).hwloc_get_nbobjs_by_type }

/-- The state after a first `variorum_enter` of the process (Intel alone). -/
def State.after_enter : State :=
  (variorum_enter Build.intel_only ErrCodes.sample Env.intel_ok State.initial).state

/-- The state after the `variorum_exit` that follows it. -/
def State.after_exit : State :=
  (variorum_exit Build.intel_only Env.intel_ok State.after_enter).state

/-- The state after a second `variorum_enter`, made while the topology source
answers differently. -/
def State.after_reenter : State :=
  (variorum_enter Build.intel_only ErrCodes.sample Env.intel_ok_4_8_8 State.after_exit).state

/-! ## Stepping lemmas

Equations that run a `Prog` one statement at a time. -/

section Stepping

variable {α β γ : Type}

@[simp] theorem Outcome.prepend_nil (o : Outcome α) : o.prepend [] = o := by
  cases o <;> rfl

@[simp] theorem Outcome.prepend_prepend (a b : List Event) (o : Outcome α) :
    (o.prepend b).prepend a = o.prepend (a ++ b) := by
  cases o <;> simp [Outcome.prepend]

theorem Outcome.prepend_ite (pre : List Event) (c : Prop) [Decidable c] (x y : Outcome α) :
    (if c then x else y).prepend pre = if c then x.prepend pre else y.prepend pre := by
  split <;> rfl

@[simp] theorem Outcome.trace_prepend (pre : List Event) (o : Outcome α) :
    (o.prepend pre).trace = pre ++ o.trace := by
  cases o <;> rfl

theorem bind_eq (m : Prog α) (f : α → Prog β) : (m >>= f) = Prog.bind m f := rfl

theorem pure_eq (a : α) : (pure a : Prog α) = Prog.pure a := rfl

theorem Prog.pure_apply (a : α) (st : State) : Prog.pure a st = .ret a st [] := rfl

theorem Prog.bind_call (e : Event) (f : Unit → Prog β) (st : State) :
    Prog.bind (call e) f st = (f () st).prepend [e] := rfl

theorem Prog.bind_setPlatform (g : Platform → Platform) (f : Unit → Prog β) (st : State) :
    Prog.bind (setPlatform g) f st = f () { st with g_platform := g st.g_platform } := by
  simp [Prog.bind, setPlatform]

theorem Prog.bind_setInit (v : Int) (f : Unit → Prog β) (st : State) :
    Prog.bind (setInit v) f st = f () { st with init_variorum_get_topology := v } := by
  simp [Prog.bind, setInit]

theorem Prog.bind_getPlatform (f : Platform → Prog β) (st : State) :
    Prog.bind getPlatform f st = f st.g_platform st := by
  simp [Prog.bind, getPlatform]

theorem Prog.bind_getInit (f : Int → Prog β) (st : State) :
    Prog.bind getInit f st = f st.init_variorum_get_topology st := by
  simp [Prog.bind, getInit]

theorem Prog.bind_getLive (v : Vendor) (f : Bool → Prog β) (st : State) :
    Prog.bind (getLive v) f st = f (st.arch_live v) st := by
  simp [Prog.bind, getLive]

theorem Prog.bind_setLive (v : Vendor) (live : Bool) (f : Unit → Prog β) (st : State) :
    Prog.bind (setLive v live) f st =
      f () { st with arch_live := Function.update st.arch_live v live } := by
  simp [Prog.bind, setLive]

theorem Prog.bind_c_exit (c : Int) (f : Unit → Prog β) (st : State) :
    Prog.bind (c_exit c) f st = .exited c st [.exit_call c] := rfl

theorem Prog.bind_c_undef (u : UB) (f : α → Prog β) (st : State) :
    Prog.bind (c_undef u) f st = .undef u st [] := rfl

theorem Prog.bind_pure (a : α) (f : α → Prog β) (st : State) :
    Prog.bind (Prog.pure a) f st = f a st := by
  simp [Prog.bind, Prog.pure]

theorem Prog.bind_assoc (m : Prog α) (f : α → Prog β) (g : β → Prog γ) :
    Prog.bind (Prog.bind m f) g = Prog.bind m (fun a => Prog.bind (f a) g) := by
  funext st
  simp only [Prog.bind]
  cases m st <;> simp [Outcome.prepend]
  rename_i a st1 tr
  cases f a st1 <;> simp [Outcome.prepend]
  cases g _ _ <;> simp

theorem Prog.bind_c_if (c : Prop) [Decidable c] (body : Prog Unit) (f : Unit → Prog β)
    (st : State) :
    Prog.bind (c_if c body) f st = if c then Prog.bind body f st else f () st := by
  unfold c_if
  split <;> simp [Prog.bind_pure]

theorem Prog.bind_ite (c : Prop) [Decidable c] (x y : Prog α) (f : α → Prog β)
    (st : State) :
    Prog.bind (if c then x else y) f st = if c then Prog.bind x f st else Prog.bind y f st := by
  split <;> rfl

theorem Prog.ite_apply (c : Prop) [Decidable c] (x y : Prog α) (st : State) :
    (if c then x else y) st = if c then x st else y st := by
  split <;> rfl

theorem Prog.bind_of_ret {m : Prog α} {st st1 : State} {a : α} {tr : List Event}
    (h : m st = .ret a st1 tr) (f : α → Prog β) :
    Prog.bind m f st = (f a st1).prepend tr := by
  simp [Prog.bind, h]

theorem Prog.bind_of_exited {m : Prog α} {st st1 : State} {c : Int} {tr : List Event}
    (h : m st = .exited c st1 tr) (f : α → Prog β) :
    Prog.bind m f st = .exited c st1 tr := by
  simp [Prog.bind, h]

end Stepping

/-! ## The topology probe -/

/-- A later call: with the static flag set, the call only refreshes the host name
and copies the recorded counts out. -/
theorem get_topology_cached (env : Env) (out : OutArgs) (st : State)
    (h : st.init_variorum_get_topology ≠ 0) :
    variorum_get_topology env out st =
      .ret (out_after out st.g_platform)
        { st with g_platform := { st.g_platform with hostname := env.hostname } }
        (Event.gethostname :: out_stores out st.g_platform) := by
  simp only [variorum_get_topology, bind_eq, pure_eq, Prog.bind_call, Prog.bind_setPlatform,
    Prog.bind_getPlatform, Prog.bind_getInit, Prog.bind_pure, Prog.pure_apply, Prog.bind_assoc,
    Prog.bind_c_if, Outcome.prepend_ite, h, if_false, out_stores, out_after]
  split_ifs <;> simp [Outcome.prepend]

/-- A first call on a usable topology returns, with the descriptor recorded and
the static flag set. -/
theorem get_topology_first_ok (env : Env) (out : OutArgs) (st : State)
    (h : st.init_variorum_get_topology = 0) (hok : env.topology_ok) :
    variorum_get_topology env out st =
      .ret (out_after out (probed env st.g_platform))
        { st with g_platform := probed env st.g_platform, init_variorum_get_topology := 1 }
        (probe_calls ++ out_stores out (probed env st.g_platform)) := by
  obtain ⟨hi, hl, hs1, hs0, hc1, hc0, ht1, ht0, hcs, htc⟩ := hok
  simp only [variorum_get_topology, bind_eq, pure_eq, Prog.bind_call, Prog.bind_setPlatform,
    Prog.bind_setInit, Prog.bind_getPlatform, Prog.bind_getInit, Prog.bind_c_exit,
    Prog.bind_c_undef, Prog.bind_pure, Prog.pure_apply, Prog.bind_assoc, Prog.bind_c_if,
    Prog.bind_ite, c_div, c_mod, Outcome.prepend_ite, h, hi, hl, hs1, hs0, hc1, hc0, ht1, ht0,
    hcs, htc, if_false, if_true, ne_eq, not_true_eq_false, false_and, and_false,
    out_stores, out_after, probed, probe_calls]
  split_ifs <;> simp [Outcome.prepend]

/-- A first call on an unusable topology terminates the process with `exit(-1)`
before any store through an output parameter. -/
theorem get_topology_first_fail (env : Env) (out : OutArgs) (st : State)
    (h : st.init_variorum_get_topology = 0) (hbad : ¬ env.topology_ok) :
    ∃ st1 tr, variorum_get_topology env out st = .exited (-1) st1 tr ∧
      tr.getLast? = some (.exit_call (-1)) ∧
      ∀ e ∈ tr, e.is_store = false ∧ e.is_wiring = false := by
  rcases eq_or_ne env.hwloc_topology_init 0 with a1 | a1
  on_goal 1 => rcases eq_or_ne env.hwloc_topology_load 0 with a2 | a2
  on_goal 1 => rcases ne_or_eq (env.hwloc_get_nbobjs_by_type .HWLOC_OBJ_SOCKET) (-1) with a3 | a3
  on_goal 1 => rcases ne_or_eq (env.hwloc_get_nbobjs_by_type .HWLOC_OBJ_SOCKET) 0 with a4 | a4
  on_goal 1 => rcases ne_or_eq (env.hwloc_get_nbobjs_by_type .HWLOC_OBJ_CORE) (-1) with a5 | a5
  on_goal 1 => rcases ne_or_eq (env.hwloc_get_nbobjs_by_type .HWLOC_OBJ_CORE) 0 with a6 | a6
  on_goal 1 => rcases ne_or_eq (env.hwloc_get_nbobjs_by_type .HWLOC_OBJ_PU) (-1) with a7 | a7
  on_goal 1 => rcases ne_or_eq (env.hwloc_get_nbobjs_by_type .HWLOC_OBJ_PU) 0 with a8 | a8
  on_goal 1 =>
    rcases eq_or_ne (Int.tmod (env.hwloc_get_nbobjs_by_type .HWLOC_OBJ_CORE)
      (env.hwloc_get_nbobjs_by_type .HWLOC_OBJ_SOCKET)) 0 with a9 | a9
  on_goal 1 =>
    rcases eq_or_ne (Int.tmod (env.hwloc_get_nbobjs_by_type .HWLOC_OBJ_PU)
      (env.hwloc_get_nbobjs_by_type .HWLOC_OBJ_CORE)) 0 with a10 | a10
  on_goal 1 => exact absurd ⟨a1, a2, a3, a4, a5, a6, a7, a8, a9, a10⟩ hbad
  all_goals
    simp only [variorum_get_topology, bind_eq, pure_eq, Prog.bind_call, Prog.bind_setPlatform,
      Prog.bind_setInit, Prog.bind_getPlatform, Prog.bind_getInit, Prog.bind_c_exit,
      Prog.bind_c_undef, Prog.bind_pure, Prog.pure_apply, Prog.bind_assoc, Prog.bind_c_if,
      Prog.bind_ite, c_div, c_mod, Outcome.prepend_ite, if_true, if_false, ne_eq,
      not_true_eq_false, not_false_eq_true, false_and, and_false, Outcome.prepend, *]
    exact ⟨_, _, rfl, by simp, by simp [Event.is_store, Event.is_wiring]⟩

/-- The probe has no undefined behaviour. -/
theorem get_topology_defined (env : Env) (out : OutArgs) (st : State) (u : UB) (st1 : State)
    (tr : List Event) : variorum_get_topology env out st ≠ .undef u st1 tr := by
  by_cases h : st.init_variorum_get_topology = 0
  · by_cases hok : env.topology_ok
    · rw [get_topology_first_ok env out st h hok]; simp
    · obtain ⟨st2, tr2, heq, -⟩ := get_topology_first_fail env out st h hok
      rw [heq]; simp
  · rw [get_topology_cached env out st h]; simp

/-- A first call that returns has seen a usable topology. -/
theorem topology_ok_of_first_ret {env : Env} {out o : OutArgs} {st st1 : State}
    {tr : List Event} (h : st.init_variorum_get_topology = 0)
    (hret : variorum_get_topology env out st = .ret o st1 tr) : env.topology_ok := by
  by_contra hbad
  obtain ⟨st2, tr2, heq, -⟩ := get_topology_first_fail env out st h hbad
  rw [heq] at hret
  cases hret

theorem out_stores_no_hwloc (out : OutArgs) (p : Platform) :
    ∀ e ∈ out_stores out p, e.is_hwloc = false := by
  intro e he
  simp only [out_stores, List.mem_append] at he
  rcases he with (he | he) | he <;> split_ifs at he <;> simp_all [Event.is_hwloc]

theorem apply_binds_cons (x : Slot × Nat) (xs : List (Slot × Nat)) (t : Slot → Option Nat) :
    apply_binds (x :: xs) t = apply_binds xs (Function.update t x.1 (some x.2)) := rfl

/-- A slot is bound after a wiring step iff the step assigns it or it was bound. -/
theorem apply_binds_ne_none (binds : List (Slot × Nat)) (t : Slot → Option Nat) (s : Slot) :
    apply_binds binds t s ≠ none ↔ (s ∈ binds.map Prod.fst ∨ t s ≠ none) := by
  induction binds generalizing t with
  | nil => simp [apply_binds]
  | cons x xs ih =>
    rw [apply_binds_cons, ih]
    by_cases hs : s = x.1
    · subst hs; simp
    · simp [Function.update, hs, Ne.symm hs]

/-- A returning probe leaves the dispatch table and the handles alone, and its
trace is one of two. -/
theorem probe_ret_frame {env : Env} {out o : OutArgs} {st st1 : State} {t1 : List Event}
    (hp : variorum_get_topology env out st = .ret o st1 t1) :
    st1.g_platform.slots = st.g_platform.slots ∧
    (∀ v, st1.g_platform.arch v = st.g_platform.arch v) ∧
    (t1 = Event.gethostname :: out_stores out st.g_platform ∨
      t1 = probe_calls ++ out_stores out (probed env st.g_platform)) := by
  by_cases h : st.init_variorum_get_topology = 0
  · have hok := topology_ok_of_first_ret h hp
    rw [get_topology_first_ok env out st h hok] at hp
    injection hp with _ hst htr
    subst hst htr
    exact ⟨rfl, fun v => by cases v <;> rfl, Or.inr rfl⟩
  · rw [get_topology_cached env out st h] at hp
    injection hp with _ hst htr
    subst hst htr
    exact ⟨rfl, fun v => by cases v <;> rfl, Or.inl rfl⟩

theorem probe_null_trace {env : Env} {o : OutArgs} {st st1 : State} {t1 : List Event}
    (hp : variorum_get_topology env OutArgs.null st = .ret o st1 t1) :
    t1 = [Event.gethostname] ∨ t1 = probe_calls := by
  rcases (probe_ret_frame hp).2.2 with h | h <;> simp [h, out_stores, OutArgs.null]


theorem out_stores_no_wiring (out : OutArgs) (p : Platform) :
    ∀ e ∈ out_stores out p, e.is_wiring = false := by
  intro e he
  simp only [out_stores, List.mem_append] at he
  rcases he with (he | he) | he <;> split_ifs at he <;> simp_all [Event.is_wiring]

/-- The probe calls no wiring step and no `init_msr`, however it ends. -/
theorem probe_trace_no_wiring (env : Env) (out : OutArgs) (st : State) :
    ∀ e ∈ (variorum_get_topology env out st).trace, e.is_wiring = false := by
  by_cases h : st.init_variorum_get_topology = 0
  · by_cases hok : env.topology_ok
    · rw [get_topology_first_ok env out st h hok]
      intro e he
      simp only [Outcome.trace, List.mem_append] at he
      rcases he with he | he
      · simp only [probe_calls, List.mem_cons, List.mem_singleton, List.not_mem_nil,
          or_false] at he
        rcases he with rfl | rfl | rfl | rfl | rfl | rfl | rfl <;> rfl
      · exact out_stores_no_wiring out _ e he
    · obtain ⟨st2, tr2, heq, -, hs⟩ := get_topology_first_fail env out st h hok
      rw [heq]
      exact fun e he => (hs e he).2
  · rw [get_topology_cached env out st h]
    intro e he
    simp only [Outcome.trace, List.mem_cons] at he
    rcases he with rfl | he
    · rfl
    · exact out_stores_no_wiring out _ e he

/-! ## The dispatch table and the wiring -/

/-- After `variorum_init_func_ptrs` every slot is `NULL` and nothing else changed. -/
theorem init_func_ptrs_eq (st : State) :
    variorum_init_func_ptrs st = .ret () st.reset_slots [] := by
  simp only [variorum_init_func_ptrs, set_slot, bind_eq, Prog.bind_setPlatform, setPlatform,
    State.reset_slots]
  congr 2
  congr 1
  funext s
  cases s <;> simp [Function.update]

theorem bind_init_func_ptrs {β : Type} (f : Unit → Prog β) (st : State) :
    Prog.bind variorum_init_func_ptrs f st = f () st.reset_slots := by
  rw [Prog.bind_of_ret (init_func_ptrs_eq st)]
  simp

/-- What `variorum_set_func_ptrs` does: the value, the table and the calls. -/
theorem set_func_ptrs_eq (b : Build) (env : Env) (st : State) :
    variorum_set_func_ptrs b env st =
      .ret (set_func_ptrs_result b env)
        { st with g_platform :=
            { st.g_platform with slots := set_func_ptrs_slots b env st.g_platform.slots } }
        (set_func_ptrs_calls b env) := by
  rcases b with ⟨bi, ba, bb, bn, br, bl⟩
  cases bi <;> cases bb <;> cases bn <;> cases br <;>
    simp [variorum_set_func_ptrs, vendor_set_func_ptrs, init_msr, bind_eq, pure_eq,
      Prog.bind_call, Prog.bind_setPlatform, Prog.bind_pure, Prog.pure_apply, Prog.bind_assoc,
      Prog.bind_ite, Prog.ite_apply, Outcome.prepend_ite, Outcome.prepend,
      set_func_ptrs_result, set_func_ptrs_slots, set_func_ptrs_calls, wire_later,
      wire_later_calls] <;>
    split_ifs <;> simp


theorem c_if_pure (c : Prop) [Decidable c] : c_if c (Prog.pure ()) = Prog.pure () := by
  unfold c_if; split <;> rfl

set_option maxHeartbeats 4000000 in
/-- What `variorum_detect_arch` does: undefined behaviour when a `printf` under
`VARIORUM_LOG` dereferences a `NULL` handle, and otherwise a return. -/
theorem detect_arch_total (b : Build) (codes : ErrCodes) (env : Env) (st : State) :
    variorum_detect_arch b codes env st =
      if b.log_null_deref env then
        .undef .null_deref
          { st with g_platform := detected b env st.g_platform
                    arch_live := detected_live b env st.arch_live }
          (detect_arch_calls_undef b env)
      else
        .ret (detect_arch_result b codes env st.g_platform)
          { st with g_platform := detected b env st.g_platform
                    arch_live := detected_live b env st.arch_live }
          (detect_arch_calls b codes env st.g_platform) := by
  rcases b with ⟨bi, ba, bb, bn, br, bl⟩
  simp only [variorum_detect_arch, pure_eq, c_if_pure]
  rcases hi : env.detect_intel_arch with _ | mi <;>
  rcases hb : env.detect_ibm_arch with _ | mb <;>
  cases bi <;> cases bb <;> cases bn <;> cases br <;> cases bl <;>
    simp [vendor_detect_arch, deref, bind_eq, pure_eq, detected_live, Prog.bind_setLive,
      Prog.bind_call, Prog.bind_setPlatform, Prog.bind_getPlatform, Prog.bind_pure,
      Prog.pure_apply, Prog.bind_assoc, Prog.bind_c_if, Prog.bind_c_undef,
      Prog.bind_ite, Prog.ite_apply, Outcome.prepend_ite, Outcome.prepend,
      detect_arch_result, detect_arch_calls, detect_arch_calls_undef, detect_calls, detected,
      Platform.no_arch, Build.log_null_deref, hi, hb] <;>
    split_ifs <;> simp

theorem detect_arch_eq (b : Build) (codes : ErrCodes) (env : Env) (st : State)
    (h : ¬ b.log_null_deref env) :
    variorum_detect_arch b codes env st =
      .ret (detect_arch_result b codes env st.g_platform)
        { st with g_platform := detected b env st.g_platform
                  arch_live := detected_live b env st.arch_live }
        (detect_arch_calls b codes env st.g_platform) := by
  rw [detect_arch_total, if_neg h]

theorem detect_arch_undef (b : Build) (codes : ErrCodes) (env : Env) (st : State)
    (h : b.log_null_deref env) :
    variorum_detect_arch b codes env st =
      .undef .null_deref
        { st with g_platform := detected b env st.g_platform
                  arch_live := detected_live b env st.arch_live }
        (detect_arch_calls_undef b env) := by
  rw [detect_arch_total, if_pos h]

/-! ## Enter and Exit -/

/-- What `variorum_enter` does once its probe has returned. -/
theorem enter_after_probe (b : Build) (codes : ErrCodes) (env : Env) (st : State)
    (o : OutArgs) (st1 : State) (t1 : List Event)
    (hp : variorum_get_topology env OutArgs.null st.reset_slots = .ret o st1 t1) :
    variorum_enter b codes env st =
      if b.log_null_deref env then
        .undef .null_deref
          { st1 with g_platform := detected b env st1.g_platform
                     arch_live := detected_live b env st1.arch_live }
          (enter_head b ++ t1 ++ detect_arch_calls_undef b env)
      else if detect_arch_result b codes env st1.g_platform ≠ 0 then
        .ret (detect_arch_result b codes env st1.g_platform)
          { st1 with g_platform := detected b env st1.g_platform
                     arch_live := detected_live b env st1.arch_live }
          (enter_head b ++ t1 ++ detect_arch_calls b codes env st1.g_platform ++
            [Event.getenv_hostname,
             Event.variorum_error_handler .cannot_detect_architecture
               (detect_arch_result b codes env st1.g_platform)])
      else
        .ret (set_func_ptrs_result b env)
          { st1 with
            g_platform :=
              { detected b env st1.g_platform with
                slots := set_func_ptrs_slots b env st1.g_platform.slots }
            arch_live := detected_live b env st1.arch_live }
          (enter_head b ++ t1 ++ detect_arch_calls b codes env st1.g_platform ++
            set_func_ptrs_calls b env ++
            (if set_func_ptrs_result b env ≠ 0 then
              [Event.getenv_hostname,
               Event.variorum_error_handler .cannot_set_function_pointers
                 (set_func_ptrs_result b env)]
             else [])) := by
  simp only [variorum_enter, OutArgs.null] at hp ⊢
  simp only [bind_eq, pure_eq, Prog.bind_assoc, Prog.bind_c_if, Prog.bind_call,
    bind_init_func_ptrs, Prog.bind_of_ret hp, Outcome.prepend_ite, Outcome.prepend_prepend]
  have hslots : (detected b env st1.g_platform).slots = st1.g_platform.slots := rfl
  by_cases hnd : b.log_null_deref env
  · simp only [if_pos hnd, Prog.bind, detect_arch_undef b codes env st1 hnd, enter_head,
      Outcome.prepend]
    split_ifs <;> simp
  · simp only [if_neg hnd, Prog.bind_of_ret (detect_arch_eq b codes env st1 hnd),
      Prog.bind_ite, Prog.ite_apply, Prog.bind_call, Prog.bind_pure, Prog.pure_apply,
      Prog.bind_of_ret (set_func_ptrs_eq b env _), Outcome.prepend_ite,
      Outcome.prepend_prepend, enter_head, Outcome.prepend, hslots]
    split_ifs <;> simp

/-- When its probe terminates the process, so does `variorum_enter`. -/
theorem enter_probe_exited (b : Build) (codes : ErrCodes) (env : Env) (st : State)
    (c : Int) (st1 : State) (t1 : List Event)
    (hp : variorum_get_topology env OutArgs.null st.reset_slots = .exited c st1 t1) :
    variorum_enter b codes env st = .exited c st1 (enter_head b ++ t1) := by
  simp only [variorum_enter, OutArgs.null] at hp ⊢
  simp only [bind_eq, pure_eq, Prog.bind_assoc, Prog.bind_c_if, Prog.bind_call,
    bind_init_func_ptrs, Prog.bind_of_exited hp, Outcome.prepend_ite, Outcome.prepend_prepend,
    enter_head, Outcome.prepend]
  split_ifs <;> simp

theorem Outcome.prepend_ret {α : Type} (pre : List Event) (a : α) (st : State)
    (tr : List Event) : (Outcome.ret a st tr).prepend pre = .ret a st (pre ++ tr) := rfl

theorem Outcome.prepend_exited {α : Type} (pre : List Event) (c : Int) (st : State)
    (tr : List Event) :
    (Outcome.exited c st tr : Outcome α).prepend pre = .exited c st (pre ++ tr) := rfl

theorem Outcome.prepend_undef {α : Type} (pre : List Event) (u : UB) (st : State)
    (tr : List Event) :
    (Outcome.undef u st tr : Outcome α).prepend pre = .undef u st (pre ++ tr) := rfl

/-- A call of `free` on a handle member. -/
theorem bind_free_arch {β : Type} (v : Vendor) (f : Unit → Prog β) (st : State) :
    Prog.bind (free_arch v) f st =
      if st.g_platform.arch v ≠ none ∧ st.arch_live v = false then
        .undef .double_free st [Event.free v (st.g_platform.arch v)]
      else
        (f () { st with arch_live := Function.update st.arch_live v false }).prepend
          [Event.free v (st.g_platform.arch v)] := by
  simp only [free_arch, bind_eq, pure_eq, Prog.bind_call, Prog.bind_getPlatform,
    Prog.bind_getLive, Prog.bind_setLive, Prog.bind_c_undef, Prog.bind_pure, Prog.bind_assoc,
    Prog.bind_c_if, Outcome.prepend_ite, Outcome.prepend_undef, List.append_nil]

/-- A call of `free` under `#ifdef`. -/
theorem bind_guarded_free {β : Type} (c : Bool) (v : Vendor) (f : Unit → Prog β)
    (st : State) :
    Prog.bind (c_if (c = true) (free_arch v)) f st =
      if c = true ∧ st.g_platform.arch v ≠ none ∧ st.arch_live v = false then
        .undef .double_free st [Event.free v (st.g_platform.arch v)]
      else
        (f () { st with arch_live :=
            Function.update st.arch_live v (!c && st.arch_live v) }).prepend
          (if c = true then [Event.free v (st.g_platform.arch v)] else []) := by
  cases c
  · simp [Prog.bind_c_if]
  · simp only [Prog.bind_c_if, if_true, bind_free_arch, true_and, Bool.not_true,
      Bool.false_and]

theorem not_dangling {c : Bool} {p : Option Nat} {l : Bool}
    (h : c = true → p ≠ none → l = true) : ¬ (c = true ∧ p ≠ none ∧ l = false) := by
  rintro ⟨a, b, e⟩
  rw [h a b] at e
  cases e

/-- A recorded call under `#ifdef`. -/
theorem bind_guarded_call {β : Type} (c : Prop) [Decidable c] (e : Event)
    (f : Unit → Prog β) (st : State) :
    Prog.bind (c_if c (call e)) f st = (f () st).prepend (if c then [e] else []) := by
  by_cases h : c <;> simp [Prog.bind_c_if, Prog.bind_call, h]

/-- The calls of `free` of `variorum_exit` when no handle was released before:
the handles of the compiled vendors are released, in source order. -/
theorem exit_frees_run {β : Type} (b : Build) (k : Prog β) (st : State)
    (hok : b.handles_ok st) :
    Prog.bind (c_if (b.with_intel = true) (free_arch .intel)) (fun _ =>
      Prog.bind (c_if (b.with_amd = true) (free_arch .amd)) (fun _ =>
      Prog.bind (c_if (b.with_ibm = true) (free_arch .ibm)) (fun _ =>
      Prog.bind (c_if (b.with_nvidia = true) (free_arch .nvidia)) (fun _ =>
      Prog.bind (c_if (b.with_arm = true) (free_arch .arm)) (fun _ => k))))) st =
      (k { st with arch_live := released b st.arch_live }).prepend
        (exit_frees b st.g_platform) := by
  obtain ⟨h1, h2, h3, h4, h5⟩ := hok
  have hlive : Function.update (Function.update (Function.update (Function.update
      (Function.update st.arch_live .intel (!b.with_intel && st.arch_live .intel))
      .amd (!b.with_amd && st.arch_live .amd))
      .ibm (!b.with_ibm && st.arch_live .ibm))
      .nvidia (!b.with_nvidia && st.arch_live .nvidia))
      .arm (!b.with_arm && st.arch_live .arm) = released b st.arch_live := by
    funext v
    cases v <;> simp [Function.update_apply, released, Build.has]
  simp only [bind_guarded_free, Platform.arch, Function.update_apply, reduceCtorEq, if_false,
    if_neg (not_dangling h1), if_neg (not_dangling h2), if_neg (not_dangling h3),
    if_neg (not_dangling h4), if_neg (not_dangling h5), Outcome.prepend_prepend]
  simp only [Function.update_apply] at hlive
  rw [hlive]
  simp only [exit_frees, List.append_assoc]

/-- The calls of `free` of `variorum_exit` when some handle was released before:
a double free. -/
theorem exit_frees_double_free {β : Type} (b : Build) (k : Prog β) (st : State)
    (hbad : ¬ b.handles_ok st) :
    ∃ st1 tr,
    Prog.bind (c_if (b.with_intel = true) (free_arch .intel)) (fun _ =>
      Prog.bind (c_if (b.with_amd = true) (free_arch .amd)) (fun _ =>
      Prog.bind (c_if (b.with_ibm = true) (free_arch .ibm)) (fun _ =>
      Prog.bind (c_if (b.with_nvidia = true) (free_arch .nvidia)) (fun _ =>
      Prog.bind (c_if (b.with_arm = true) (free_arch .arm)) (fun _ => k))))) st =
      .undef .double_free st1 tr := by
  simp only [bind_guarded_free, Platform.arch, Function.update_apply, reduceCtorEq, if_false,
    Outcome.prepend_ite, Outcome.prepend_undef, Outcome.prepend_prepend]
  by_cases c1 : b.with_intel = true ∧ st.g_platform.intel_arch ≠ none ∧
      st.arch_live .intel = false
  · rw [if_pos c1]; exact ⟨_, _, rfl⟩
  rw [if_neg c1]
  by_cases c2 : b.with_amd = true ∧ st.g_platform.amd_arch ≠ none ∧
      st.arch_live .amd = false
  · rw [if_pos c2]; exact ⟨_, _, rfl⟩
  rw [if_neg c2]
  by_cases c3 : b.with_ibm = true ∧ st.g_platform.ibm_arch ≠ none ∧
      st.arch_live .ibm = false
  · rw [if_pos c3]; exact ⟨_, _, rfl⟩
  rw [if_neg c3]
  by_cases c4 : b.with_nvidia = true ∧ st.g_platform.nvidia_arch ≠ none ∧
      st.arch_live .nvidia = false
  · rw [if_pos c4]; exact ⟨_, _, rfl⟩
  rw [if_neg c4]
  by_cases c5 : b.with_arm = true ∧ st.g_platform.arm_arch ≠ none ∧
      st.arch_live .arm = false
  · rw [if_pos c5]; exact ⟨_, _, rfl⟩
  exfalso
  apply hbad
  refine ⟨fun a b => ?_, fun a b => ?_, fun a b => ?_, fun a b => ?_, fun a b => ?_⟩
  · by_contra hl; exact c1 ⟨a, b, by simpa using hl⟩
  · by_contra hl; exact c2 ⟨a, b, by simpa using hl⟩
  · by_contra hl; exact c3 ⟨a, b, by simpa using hl⟩
  · by_contra hl; exact c4 ⟨a, b, by simpa using hl⟩
  · by_contra hl; exact c5 ⟨a, b, by simpa using hl⟩

/-- Source function `variorum_exit` as the calls before the calls of `free`,
followed by the calls of `free`. -/
theorem exit_split (b : Build) (env : Env) (st : State) :
    variorum_exit b env st =
      if b.with_intel = true ∧ env.finalize_msr ≠ 0 then
        .ret env.finalize_msr st (exit_head b)
      else
        (Prog.bind (c_if (b.with_intel = true) (free_arch .intel)) (fun _ =>
          Prog.bind (c_if (b.with_amd = true) (free_arch .amd)) (fun _ =>
          Prog.bind (c_if (b.with_ibm = true) (free_arch .ibm)) (fun _ =>
          Prog.bind (c_if (b.with_nvidia = true) (free_arch .nvidia)) (fun _ =>
          Prog.bind (c_if (b.with_arm = true) (free_arch .arm)) (fun _ =>
            Prog.pure 0))))) st).prepend (exit_head b) := by
  simp only [variorum_exit, finalize_msr, bind_eq, pure_eq, bind_guarded_call, Prog.bind_call,
    Prog.bind_pure, Prog.pure_apply, Prog.bind_assoc, Prog.bind_ite, Prog.ite_apply,
    Outcome.prepend_ite, Outcome.prepend_ret, Outcome.prepend_prepend, exit_head]
  by_cases hi : b.with_intel = true
  · by_cases hf : env.finalize_msr = 0
    · simp [hi, hf]
    · simp [hi, hf]
  · simp [hi]

/-- What `variorum_exit` does: with Intel compiled in and `finalize_msr` failing
it returns that code and nothing else happens; otherwise, when no handle it frees
has been released already, it returns 0 after releasing the handles of the
compiled vendors; otherwise it runs into a double free. -/
theorem exit_eq (b : Build) (env : Env) (st : State) :
    (b.with_intel = true ∧ env.finalize_msr ≠ 0 →
      variorum_exit b env st = .ret env.finalize_msr st (exit_head b)) ∧
    (¬ (b.with_intel = true ∧ env.finalize_msr ≠ 0) → b.handles_ok st →
      variorum_exit b env st =
        .ret 0 { st with arch_live := released b st.arch_live }
          (exit_head b ++ exit_frees b st.g_platform)) ∧
    (¬ (b.with_intel = true ∧ env.finalize_msr ≠ 0) → ¬ b.handles_ok st →
      ∃ st1 tr, variorum_exit b env st = .undef .double_free st1 tr) := by
  refine ⟨fun h => ?_, fun h hok => ?_, fun h hbad => ?_⟩
  · rw [exit_split, if_pos h]
  · rw [exit_split, if_neg h, exit_frees_run b _ st hok]
    simp [Prog.pure_apply, Outcome.prepend_ret]
  · obtain ⟨st1, tr, heq⟩ := exit_frees_double_free b (Prog.pure (0 : Int)) st hbad
    rw [exit_split, if_neg h, heq]
    exact ⟨_, _, rfl⟩

/-- The returning case of `variorum_exit` that releases the handles. -/
theorem exit_ok_eq (b : Build) (env : Env) (st : State)
    (hf : ¬ (b.with_intel = true ∧ env.finalize_msr ≠ 0)) (hok : b.handles_ok st) :
    variorum_exit b env st =
      .ret 0 { st with arch_live := released b st.arch_live }
        (exit_head b ++ exit_frees b st.g_platform) :=
  (exit_eq b env st).2.1 hf hok

/-- At process start no handle has been released. -/
theorem handles_ok_initial (b : Build) : b.handles_ok State.initial := by
  refine ⟨fun _ h => ?_, fun _ h => ?_, fun _ h => ?_, fun _ h => ?_, fun _ h => ?_⟩ <;>
    exact absurd rfl h

/-- After the detection calls, the handle of every compiled vendor is `NULL` or
points to allocated storage; for AMD, whose member no code assigns, as far as it
was so before. -/
theorem detected_handles_ok (b : Build) (env : Env) (p : Platform) (live : Vendor → Bool)
    (n : Int) (slots : Slot → Option Nat)
    (hamd : b.with_amd = true → p.amd_arch ≠ none → live .amd = true) :
    b.handles_ok
      { g_platform := { detected b env p with slots := slots }
        init_variorum_get_topology := n
        arch_live := detected_live b env live } := by
  rcases b with ⟨bi, ba, bb, bn, br, bl⟩
  refine ⟨fun h => ?_, fun h => ?_, fun h => ?_, fun h => ?_, fun h => ?_⟩
  all_goals simp only at h
  all_goals subst h
  · cases bb <;> cases bn <;> cases br <;>
      simp [detected, detected_live, Function.update_apply, Option.isSome_iff_ne_none]
  · have := hamd rfl
    cases bi <;> cases bb <;> cases bn <;> cases br <;>
      simpa [detected, detected_live, Function.update_apply] using this
  · cases bi <;> cases bn <;> cases br <;>
      simp [detected, detected_live, Function.update_apply, Option.isSome_iff_ne_none]
  · cases bi <;> cases bb <;> cases br <;>
      simp [detected, detected_live, Function.update_apply, Option.isSome_iff_ne_none]
  · cases bi <;> cases bb <;> cases bn <;>
      simp [detected, detected_live, Function.update_apply, Option.isSome_iff_ne_none]

/-- A returning probe leaves the allocation flags alone. -/
theorem probe_ret_live {env : Env} {out o : OutArgs} {st st1 : State} {t1 : List Event}
    (hp : variorum_get_topology env out st = .ret o st1 t1) :
    st1.arch_live = st.arch_live := by
  by_cases h : st.init_variorum_get_topology = 0
  · have hok := topology_ok_of_first_ret h hp
    rw [get_topology_first_ok env out st h hok] at hp
    injection hp with _ hst _
    subst hst
    rfl
  · rw [get_topology_cached env out st h] at hp
    injection hp with _ hst _
    subst hst
    rfl

/-- After a `variorum_enter` that returns, no handle that `variorum_exit` will
free has been released (for AMD: as far as it was so before). -/
theorem enter_handles_ok (b : Build) (codes : ErrCodes) (env : Env) (st st2 : State)
    (r : Int) (tr : List Event)
    (hamd : b.with_amd = true → st.g_platform.amd_arch ≠ none → st.arch_live .amd = true)
    (h : variorum_enter b codes env st = .ret r st2 tr) : b.handles_ok st2 := by
  rcases hp : variorum_get_topology env OutArgs.null st.reset_slots with
    ⟨o, st1, t1⟩ | ⟨c, st1, t1⟩ | ⟨u, st1, t1⟩
  · have ha := (probe_ret_frame hp).2.1 .amd
    have hl := probe_ret_live hp
    simp only [Platform.arch, State.reset_slots] at ha
    have hamd1 : b.with_amd = true → st1.g_platform.amd_arch ≠ none →
        st1.arch_live .amd = true := by
      rw [ha, hl]; exact hamd
    rw [enter_after_probe b codes env st o st1 t1 hp] at h
    split_ifs at h
    all_goals cases h
    all_goals first
      | exact detected_handles_ok b env _ _ _ (detected b env st1.g_platform).slots hamd1
      | exact detected_handles_ok b env _ _ _ _ hamd1
  · rw [enter_probe_exited b codes env st c st1 t1 hp] at h
    cases h
  · exact absurd hp (get_topology_defined env _ _ u st1 t1)

/-- Later calls keep the static flag set and the descriptor as it is. -/
theorem LaterCalls.keeps {st1 st : State} (h1 : st1.init_variorum_get_topology ≠ 0)
    (h : LaterCalls st1 st) :
    st.init_variorum_get_topology ≠ 0 ∧
      st.g_platform.descriptor = st1.g_platform.descriptor := by
  induction h with
  | first => exact ⟨h1, rfl⟩
  | by_get_topology env out o tr _ hcall ih =>
    rw [get_topology_cached env out _ ih.1] at hcall
    cases hcall
    exact ⟨ih.1, ih.2⟩
  | @by_enter st st2 b codes env r tr _ hcall ih =>
    have hp := get_topology_cached env OutArgs.null st.reset_slots ih.1
    rw [enter_after_probe b codes env st _ _ _ hp] at hcall
    split_ifs at hcall <;> cases hcall <;> exact ⟨ih.1, ih.2⟩
  | @by_exit st st2 b env r tr _ hcall ih =>
    obtain ⟨e1, e2, e3⟩ := exit_eq b env st
    by_cases hf : b.with_intel = true ∧ env.finalize_msr ≠ 0
    · rw [e1 hf] at hcall
      cases hcall
      exact ih
    · by_cases hok : b.handles_ok st
      · rw [e2 hf hok] at hcall
        cases hcall
        exact ⟨ih.1, ih.2⟩
      · obtain ⟨sx, tx, hx⟩ := e3 hf hok
        rw [hx] at hcall
        cases hcall
  | @by_detect_arch st st2 b codes env r tr _ hcall ih =>
    rw [detect_arch_total] at hcall
    split_ifs at hcall
    cases hcall
    exact ⟨ih.1, ih.2⟩
  | @by_set_func_ptrs st st2 b env r tr _ hcall ih =>
    rw [set_func_ptrs_eq] at hcall
    cases hcall
    exact ⟨ih.1, ih.2⟩
  | @by_init_func_ptrs st st2 tr _ hcall ih =>
    rw [init_func_ptrs_eq] at hcall
    cases hcall
    exact ⟨ih.1, ih.2⟩

/-- The state in which a `variorum_enter` returns is a later state of the state
in which its probe returned. -/
theorem LaterCalls.of_enter {b : Build} {codes : ErrCodes} {env : Env} {st st1 st2 : State}
    {o : OutArgs} {t1 tr : List Event} {r : Int}
    (hp : variorum_get_topology env OutArgs.null st.reset_slots = .ret o st1 t1)
    (h : variorum_enter b codes env st = .ret r st2 tr) : LaterCalls st1 st2 := by
  rw [enter_after_probe b codes env st o st1 t1 hp] at h
  by_cases hnd : b.log_null_deref env
  · rw [if_pos hnd] at h
    cases h
  · rw [if_neg hnd] at h
    have hd := detect_arch_eq b codes env st1 hnd
    have step1 := LaterCalls.by_detect_arch b codes env _ _ LaterCalls.first hd
    split_ifs at h
    all_goals cases h
    all_goals first
      | exact step1
      | exact LaterCalls.by_set_func_ptrs b env _ _ step1 (set_func_ptrs_eq b env _)

/-! ## Traces -/

theorem unique_split {α : Type} (x : α) (l1 l2 pre post : List α) (h1 : x ∉ l1)
    (h2 : x ∉ l2) (h : l1 ++ x :: l2 = pre ++ x :: post) : pre = l1 ∧ post = l2 := by
  induction l1 generalizing pre with
  | nil =>
    cases pre with
    | nil => simp at h; exact ⟨rfl, h.symm⟩
    | cons p ps =>
      simp only [List.nil_append, List.cons_append, List.cons.injEq] at h
      exact absurd (h.2 ▸ List.mem_append_right ps (List.mem_cons_self x post)) h2
  | cons a as ih =>
    cases pre with
    | nil =>
      simp only [List.nil_append, List.cons_append, List.cons.injEq] at h
      exact absurd (h.1 ▸ List.mem_cons_self _ _) h1
    | cons p ps =>
      simp only [List.cons_append, List.cons.injEq] at h
      obtain ⟨hap, hrest⟩ := h
      have := ih ps (fun hm => h1 (List.mem_cons_of_mem _ hm)) hrest
      exact ⟨by rw [this.1, hap], this.2⟩

theorem wire_later_calls_no_init_msr (b : Build) : Event.init_msr ∉ wire_later_calls b := by
  simp only [wire_later_calls]
  split_ifs <;> simp

theorem set_func_ptrs_calls_split (b : Build) (env : Env) (pre post : List Event)
    (h : set_func_ptrs_calls b env = pre ++ Event.init_msr :: post) :
    b.with_intel = true ∧ env.set_intel_func_ptrs.status = 0 ∧
      pre = [Event.set_func_ptrs .intel] ∧ post = wire_later_calls b := by
  unfold set_func_ptrs_calls at h
  by_cases hi : b.with_intel = true
  · by_cases hs : env.set_intel_func_ptrs.status = 0
    · simp only [hi, hs, if_true, ne_eq, not_true_eq_false, if_false] at h
      have := unique_split Event.init_msr [Event.set_func_ptrs .intel] (wire_later_calls b)
        pre post (by simp) (wire_later_calls_no_init_msr b) (by simpa using h)
      exact ⟨hi, hs, this.1, this.2⟩
    · simp only [hi, if_true, ne_eq, hs, not_false_eq_true] at h
      have : Event.init_msr ∈ [Event.set_func_ptrs Vendor.intel] := by
        rw [h]; simp
      simp at this
  · simp only [hi] at h
    have : Event.init_msr ∈ wire_later_calls b := by
      simp only [Bool.false_eq_true, if_false] at h
      rw [h]; simp
    exact absurd this (wire_later_calls_no_init_msr b)

theorem no_init_msr_of_no_wiring {l : List Event} (h : ∀ e ∈ l, e.is_wiring = false) :
    Event.init_msr ∉ l := fun hm => by
  have := h _ hm
  simp [Event.is_wiring] at this

theorem enter_head_no_wiring (b : Build) : ∀ e ∈ enter_head b, e.is_wiring = false := by
  intro e he
  simp only [enter_head] at he
  split_ifs at he <;> simp at he <;> rcases he with rfl | rfl <;> rfl

theorem detect_calls_no_wiring (b : Build) : ∀ e ∈ detect_calls b, e.is_wiring = false := by
  intro e he
  simp only [detect_calls, List.mem_append] at he
  rcases he with ((he | he) | he) | he <;> split_ifs at he <;> simp at he <;> subst he <;> rfl

theorem detect_arch_calls_no_wiring (b : Build) (codes : ErrCodes) (env : Env) (p : Platform) :
    ∀ e ∈ detect_arch_calls b codes env p, e.is_wiring = false := by
  intro e he
  simp only [detect_arch_calls, List.mem_append] at he
  rcases he with ((he | he) | he) | he
  · exact detect_calls_no_wiring b e he
  all_goals split_ifs at he <;> simp at he
  all_goals first | (subst he; rfl) | (rcases he with rfl | rfl <;> rfl)

theorem detect_arch_calls_undef_no_wiring (b : Build) (env : Env) :
    ∀ e ∈ detect_arch_calls_undef b env, e.is_wiring = false := by
  intro e he
  simp only [detect_arch_calls_undef, List.mem_append] at he
  rcases he with he | he
  · exact detect_calls_no_wiring b e he
  · split_ifs at he <;> simp at he
    subst he; rfl

theorem set_func_ptrs_calls_cases (b : Build) (env : Env) :
    (b.with_intel = true ∧ env.set_intel_func_ptrs.status = 0 ∧
      set_func_ptrs_calls b env =
        [Event.set_func_ptrs .intel] ++ Event.init_msr :: wire_later_calls b) ∨
    Event.init_msr ∉ set_func_ptrs_calls b env := by
  unfold set_func_ptrs_calls
  by_cases hi : b.with_intel = true
  · by_cases hs : env.set_intel_func_ptrs.status = 0
    · left
      simp [hi, hs]
    · right
      simp [hi, hs]
  · right
    simp only [hi, Bool.false_eq_true, if_false]
    exact wire_later_calls_no_init_msr b


/-! ## Detection -/

/-- At process start the unassigned handle members are `NULL`. -/
theorem unassigned_null_initial (b : Build) : b.unassigned_null State.initial.g_platform :=
  ⟨fun _ => rfl, rfl, fun _ => rfl, fun _ => rfl, fun _ => rfl⟩

/-- The detection calls keep the unassigned handle members `NULL`. -/
theorem detected_keeps_unassigned_null (b : Build) (env : Env) (p : Platform)
    (hinv : b.unassigned_null p) : b.unassigned_null (detected b env p) := by
  obtain ⟨h1, h2, h3, h4, h5⟩ := hinv
  refine ⟨fun h => ?_, h2, fun h => ?_, fun h => ?_, fun h => ?_⟩ <;>
    simp [detected, h, h1, h3, h4, h5]

/-- On a state where the unassigned handle members are `NULL`, the test of
`variorum_detect_arch` fails exactly when some compiled vendor detected. -/
theorem no_arch_detected_iff (b : Build) (env : Env) (p : Platform)
    (hinv : b.unassigned_null p) : (detected b env p).no_arch ↔ ¬ b.detects env := by
  obtain ⟨h1, h2, h3, h4, h5⟩ := hinv
  rcases b with ⟨bi, ba, bb, bn, br, bl⟩
  simp only [Build.detects, Platform.no_arch, detected]
  constructor
  · rintro ⟨a1, -, a3, a4, a5⟩ ⟨v, hv, hd⟩
    cases v <;> simp only [Build.has] at hv <;> subst hv <;> simp_all [Env.detect]
  · intro hno
    have f : ∀ v, Build.has ⟨bi, ba, bb, bn, br, bl⟩ v = true → env.detect v = none := by
      intro v hv
      by_contra hc
      exact hno ⟨v, hv, hc⟩
    have f1 := f .intel
    have f3 := f .ibm
    have f4 := f .nvidia
    have f5 := f .arm
    simp only [Build.has, Env.detect] at f1 f3 f4 f5
    refine ⟨?_, h2, ?_, ?_, ?_⟩
    · cases bi <;> simp_all
    · cases bb <;> simp_all
    · cases bn <;> simp_all
    · cases br <;> simp_all

/-- Without the `NULL` dereference of the logging build, on a state where the
unassigned handle members are `NULL`: `variorum_detect_arch` returns, it returns 0
iff some compiled vendor's detection function returned a handle, and otherwise it
returns `VARIORUM_ERROR_UNSUPPORTED_ARCH` after calling the error handler. -/
theorem detect_arch_without_null_deref (b : Build) (codes : ErrCodes) (env : Env) (st : State)
    (hinv : b.unassigned_null st.g_platform) (hnd : ¬ b.log_null_deref env)
    (hcode : codes.VARIORUM_ERROR_UNSUPPORTED_ARCH ≠ 0) :
    ∃ r st1 tr,
      variorum_detect_arch b codes env st = .ret r st1 tr ∧
      (r = 0 ↔ b.detects env) ∧
      (¬ b.detects env →
        r = codes.VARIORUM_ERROR_UNSUPPORTED_ARCH ∧
        Event.variorum_error_handler .no_architectures_detected
          codes.VARIORUM_ERROR_RUNTIME ∈ tr) ∧
      (∀ e ∈ tr, e.is_wiring = false) := by
  refine ⟨_, _, _, detect_arch_eq b codes env st hnd, ?_, ?_,
    detect_arch_calls_no_wiring b codes env _⟩
  · unfold detect_arch_result
    by_cases hna : (detected b env st.g_platform).no_arch
    · simp only [hna, if_true]
      exact ⟨fun h => absurd h hcode,
        fun h => absurd h ((no_arch_detected_iff b env _ hinv).mp hna)⟩
    · simp only [hna, if_false, true_iff]
      by_contra hc
      exact hna ((no_arch_detected_iff b env _ hinv).mpr hc)
  · intro hno
    have hna := (no_arch_detected_iff b env _ hinv).mpr hno
    simp [detect_arch_result, detect_arch_calls, hna]

/-- Without the `NULL` dereference of the logging build, on a state where the
unassigned handle members are `NULL`: if the probe returns and no compiled vendor
detects, `variorum_enter` returns the detection error code, calls no wiring step
and no `init_msr`, and leaves every slot `NULL`. -/
theorem enter_detection_fails (b : Build) (codes : ErrCodes) (env : Env) (st : State)
    (o : OutArgs) (stp : State) (tp : List Event)
    (hinv : b.unassigned_null st.g_platform)
    (hprobe : variorum_get_topology env OutArgs.null st.reset_slots = .ret o stp tp)
    (hno : ¬ b.detects env) (hnd : ¬ b.log_null_deref env)
    (hcode : codes.VARIORUM_ERROR_UNSUPPORTED_ARCH ≠ 0) :
    ∃ st1 tr,
      variorum_enter b codes env st = .ret codes.VARIORUM_ERROR_UNSUPPORTED_ARCH st1 tr ∧
      (∀ e ∈ tr, e.is_wiring = false) ∧
      ∀ s, st1.g_platform.slots s = none := by
  obtain ⟨hslots, harch, -⟩ := probe_ret_frame hprobe
  have hinv1 : b.unassigned_null stp.g_platform := by
    have a1 := harch .intel
    have a2 := harch .amd
    have a3 := harch .ibm
    have a4 := harch .nvidia
    have a5 := harch .arm
    simp only [Platform.arch, State.reset_slots] at a1 a2 a3 a4 a5
    unfold Build.unassigned_null
    rw [a1, a2, a3, a4, a5]
    exact hinv
  have hna := (no_arch_detected_iff b env _ hinv1).mpr hno
  have hr : detect_arch_result b codes env stp.g_platform =
      codes.VARIORUM_ERROR_UNSUPPORTED_ARCH := by
    simp [detect_arch_result, hna]
  rw [enter_after_probe b codes env st o stp tp hprobe, if_neg hnd, hr, if_pos hcode]
  refine ⟨_, _, rfl, ?_, ?_⟩
  · intro e he
    rcases List.mem_append.mp he with he | he
    · rcases List.mem_append.mp he with he | he
      · rcases List.mem_append.mp he with he | he
        · exact enter_head_no_wiring b e he
        · have := probe_trace_no_wiring env OutArgs.null st.reset_slots
          rw [hprobe] at this
          exact this e he
      · exact detect_arch_calls_no_wiring b codes env _ e he
    · simp at he
      rcases he with rfl | rfl <;> rfl
  · intro s
    show stp.g_platform.slots s = none
    rw [hslots]
    rfl

/-- With no vendor compiled in, no vendor detects. -/
theorem no_vendor_no_detection (b : Build) (env : Env) (h : ∀ v, b.has v = false) :
    ¬ b.detects env ∧ ¬ b.log_null_deref env := by
  have h1 := h .intel
  have h3 := h .ibm
  simp only [Build.has] at h1 h3
  constructor
  · rintro ⟨v, hv, -⟩
    rw [h v] at hv
    cases hv
  · simp [Build.log_null_deref, h1, h3]


/-! ## The claims about the topology probe -/

/-- C2: on a first call (static flag clear), when `hwloc_topology_init` and
`hwloc_topology_load` succeed and the counts are symmetric (`sockets ≥ 1`,
`cores ≥ 1`, `threads ≥ 1`, `cores % sockets == 0`, `threads % cores == 0`, all
values of type `int`), `variorum_get_topology` returns (no `exit`, no undefined
behaviour), records `num_sockets = sockets`, `total_cores = cores`,
`total_threads = threads`, `num_cores_per_socket = cores / sockets` and
`num_threads_per_core = threads / cores` (both exact), and stores exactly
`sockets`, `cores`, `threads` through the non-null output parameters. -/
theorem C2_symmetric_topology_recorded (env : Env) (out : OutArgs) (st : State)
    (sockets cores threads : Int)
    (hfirst : st.init_variorum_get_topology = 0)
    (hinit : env.hwloc_topology_init = 0) (hload : env.hwloc_topology_load = 0)
    (hS : env.hwloc_get_nbobjs_by_type .HWLOC_OBJ_SOCKET = sockets)
    (hC : env.hwloc_get_nbobjs_by_type .HWLOC_OBJ_CORE = cores)
    (hT : env.hwloc_get_nbobjs_by_type .HWLOC_OBJ_PU = threads)
    (hs : 1 ≤ sockets) (hc : 1 ≤ cores) (ht : 1 ≤ threads)
    (hcs : Int.tmod cores sockets = 0) (htc : Int.tmod threads cores = 0)
    (hint : IsInt sockets ∧ IsInt cores ∧ IsInt threads) :
    ∃ st1 tr,
      variorum_get_topology env out st =
        .ret { nsockets := store_if_nonnull out.nsockets sockets.toNat
               ncores := store_if_nonnull out.ncores cores.toNat
               nthreads := store_if_nonnull out.nthreads threads.toNat } st1 tr ∧
      st1.g_platform.num_sockets = sockets ∧
      st1.g_platform.total_cores = cores ∧
      st1.g_platform.total_threads = threads ∧
      st1.g_platform.num_cores_per_socket = Int.tdiv cores sockets ∧
      st1.g_platform.num_threads_per_core = Int.tdiv threads cores ∧
      st1.g_platform.num_cores_per_socket * sockets = cores ∧
      st1.g_platform.num_threads_per_core * cores = threads ∧
      tr.filter Event.is_store =
        (if out.nsockets ≠ none then [Event.store_nsockets sockets.toNat] else []) ++
        (if out.ncores ≠ none then [Event.store_ncores cores.toNat] else []) ++
        (if out.nthreads ≠ none then [Event.store_nthreads threads.toNat] else []) := by
  have hok : env.topology_ok := by
    refine ⟨hinit, hload, ?_, ?_, ?_, ?_, ?_, ?_, ?_, ?_⟩ <;> simp only [hS, hC, hT] <;>
      omega
  have hu : ∀ x : Int, 1 ≤ x → IsInt x → to_unsigned x = x.toNat := by
    intro x hx hi
    unfold IsInt INT_MIN INT_MAX at hi
    unfold to_unsigned
    congr 1
    omega
  rw [get_topology_first_ok env out st hfirst hok]
  refine ⟨{ st with g_platform := probed env st.g_platform, init_variorum_get_topology := 1 },
    probe_calls ++ out_stores out (probed env st.g_platform), ?_, ?_⟩
  · simp only [probed, hS, hC, hT, out_after, hu sockets hs hint.1, hu cores hc hint.2.1,
      hu threads ht hint.2.2]
  simp only [probed, hS, hC, hT, out_stores, hu sockets hs hint.1,
    hu cores hc hint.2.1, hu threads ht hint.2.2, true_and]
  refine ⟨?_, ?_, ?_⟩
  · have := Int.tdiv_add_tmod cores sockets
    rw [hcs] at this
    linarith [Int.mul_comm sockets (cores.tdiv sockets)]
  · have := Int.tdiv_add_tmod threads cores
    rw [htc] at this
    linarith [Int.mul_comm cores (threads.tdiv cores)]
  · simp only [probe_calls]
    split_ifs <;> simp [Event.is_store]

/-- C2, the example of the specification: two sockets, 32 cores and 64 threads
give 16 cores per socket and 2 threads per core, and the three counts are stored
through the output parameters. -/
theorem C2_symmetric_topology_recorded_witness :
    ∃ st1 tr,
      variorum_get_topology (Env.of_counts 2 32 64) OutArgs.all State.initial =
        .ret { nsockets := some 2, ncores := some 32, nthreads := some 64 } st1 tr ∧
      st1.g_platform.num_sockets = 2 ∧
      st1.g_platform.total_cores = 32 ∧
      st1.g_platform.total_threads = 64 ∧
      st1.g_platform.num_cores_per_socket = 16 ∧
      st1.g_platform.num_threads_per_core = 2 := by
  obtain ⟨st1, tr, h, a1, a2, a3, a4, a5, -⟩ :=
    C2_symmetric_topology_recorded (Env.of_counts 2 32 64) OutArgs.all State.initial 2 32 64
      rfl rfl rfl rfl rfl rfl (by decide) (by decide) (by decide) (by decide) (by decide)
      (by decide)
  exact ⟨st1, tr, h, a1, a2, a3, a4, a5⟩

/-- C3: a first call of `variorum_get_topology` terminates the process through
`exit(-1)`, with no store through an output parameter, in each of these cases:
`hwloc_topology_init` or `hwloc_topology_load` returns non-zero; the socket, core
or PU count is `-1` or `0`; `total_cores % num_sockets != 0`;
`total_threads % total_cores != 0`. -/
theorem C3_bad_topology_is_fatal (env : Env) (out : OutArgs) (st : State)
    (hfirst : st.init_variorum_get_topology = 0)
    (hcase : env.hwloc_topology_init ≠ 0 ∨ env.hwloc_topology_load ≠ 0 ∨
      env.hwloc_get_nbobjs_by_type .HWLOC_OBJ_SOCKET = -1 ∨
      env.hwloc_get_nbobjs_by_type .HWLOC_OBJ_SOCKET = 0 ∨
      env.hwloc_get_nbobjs_by_type .HWLOC_OBJ_CORE = -1 ∨
      env.hwloc_get_nbobjs_by_type .HWLOC_OBJ_CORE = 0 ∨
      env.hwloc_get_nbobjs_by_type .HWLOC_OBJ_PU = -1 ∨
      env.hwloc_get_nbobjs_by_type .HWLOC_OBJ_PU = 0 ∨
      Int.tmod (env.hwloc_get_nbobjs_by_type .HWLOC_OBJ_CORE)
        (env.hwloc_get_nbobjs_by_type .HWLOC_OBJ_SOCKET) ≠ 0 ∨
      Int.tmod (env.hwloc_get_nbobjs_by_type .HWLOC_OBJ_PU)
        (env.hwloc_get_nbobjs_by_type .HWLOC_OBJ_CORE) ≠ 0) :
    ∃ st1 tr,
      variorum_get_topology env out st = .exited (-1) st1 tr ∧
      tr.getLast? = some (.exit_call (-1)) ∧
      ∀ e ∈ tr, e.is_store = false := by
  have hbad : ¬ env.topology_ok := by
    rintro ⟨a1, a2, a3, a4, a5, a6, a7, a8, a9, a10⟩
    rcases hcase with h | h | h | h | h | h | h | h | h | h <;> contradiction
  obtain ⟨st1, tr, h1, h2, h3⟩ := get_topology_first_fail env out st hfirst hbad
  exact ⟨st1, tr, h1, h2, fun e he => (h3 e he).1⟩

/-- C3, the example of the specification: three sockets and 32 cores are fatal,
because `32 % 3 != 0`. -/
theorem C3_bad_topology_is_fatal_witness :
    Int.tmod 32 3 ≠ 0 ∧
    ∃ st1 tr,
      variorum_get_topology (Env.of_counts 3 32 64) OutArgs.all State.initial =
        .exited (-1) st1 tr ∧
      tr.getLast? = some (.exit_call (-1)) ∧
      ∀ e ∈ tr, e.is_store = false :=
  ⟨by decide,
    C3_bad_topology_is_fatal (Env.of_counts 3 32 64) OutArgs.all State.initial rfl
      (Or.inr (Or.inr (Or.inr (Or.inr (Or.inr (Or.inr (Or.inr (Or.inr (Or.inl
        (by decide))))))))))⟩

/-- C4: topology probing is first-call-wins. After a first call that returned
(from a state with the static flag clear, be it a direct call or the call inside
`variorum_enter`), every later call of `variorum_get_topology` in the process,
whatever returning calls of `variorum_enter`, `variorum_exit`,
`variorum_get_topology`, `variorum_detect_arch`, `variorum_set_func_ptrs` and
`variorum_init_func_ptrs` were made in between, with any `NULL` or non-null output
parameters and whatever the topology source would answer now: returns, makes no
call into the topology source, leaves the descriptor (`num_sockets`,
`total_cores`, `total_threads`, `num_cores_per_socket`, `num_threads_per_core`) as
the first call recorded it, and stores through the non-null output parameters the
counts the first call recorded, which are the answers the topology source gave to
the first call. -/
theorem C4_first_call_wins (env0 : Env) (out0 o1 : OutArgs) (st0 st1 : State)
    (tr1 : List Event)
    (hfirst : st0.init_variorum_get_topology = 0)
    (hret : variorum_get_topology env0 out0 st0 = .ret o1 st1 tr1)
    (st : State) (hlater : LaterCalls st1 st) (env : Env) (out : OutArgs) :
    st1.g_platform.num_sockets = env0.hwloc_get_nbobjs_by_type .HWLOC_OBJ_SOCKET ∧
    st1.g_platform.total_cores = env0.hwloc_get_nbobjs_by_type .HWLOC_OBJ_CORE ∧
    st1.g_platform.total_threads = env0.hwloc_get_nbobjs_by_type .HWLOC_OBJ_PU ∧
    ∃ st2 tr,
      variorum_get_topology env out st =
        .ret { nsockets := store_if_nonnull out.nsockets (to_unsigned st1.g_platform.num_sockets)
               ncores := store_if_nonnull out.ncores (to_unsigned st1.g_platform.total_cores)
               nthreads :=
                 store_if_nonnull out.nthreads (to_unsigned st1.g_platform.total_threads) }
          st2 tr ∧
      (∀ e ∈ tr, e.is_hwloc = false) ∧
      st2.g_platform.descriptor = st1.g_platform.descriptor ∧
      st2.init_variorum_get_topology = st.init_variorum_get_topology ∧
      tr.filter Event.is_store = out_stores out st1.g_platform := by
  have hok := topology_ok_of_first_ret hfirst hret
  rw [get_topology_first_ok env0 out0 st0 hfirst hok] at hret
  injection hret with _ hst _
  subst hst
  have hkeep := hlater.keeps (by simp)
  have hd := hkeep.2
  simp only [Platform.descriptor, Prod.mk.injEq] at hd
  obtain ⟨d1, d2, d3, -, -⟩ := hd
  refine ⟨rfl, rfl, rfl,
    { st with g_platform := { st.g_platform with hostname := env.hostname } },
    Event.gethostname :: out_stores out st.g_platform, ?_, ?_, hkeep.2, rfl, ?_⟩
  · rw [get_topology_cached env out st hkeep.1]
    simp only [out_after, d1, d2, d3]
  · intro e he
    rcases List.mem_cons.mp he with he | he
    · subst he; rfl
    · exact out_stores_no_hwloc out _ e he
  · simp only [out_stores, d1, d2, d3]
    split_ifs <;> simp [Event.is_store]

/-- C4 on a run of the whole lifecycle: the first probe is the one inside a first
`variorum_enter`, which sees 2 sockets, 32 cores and 64 threads. After that
`variorum_enter`, a `variorum_exit` and a second `variorum_enter` during which the
topology source would answer 4, 8 and 8, a call made while the topology source
cannot even be initialised stores 2, 32 and 64. -/
theorem C4_first_call_wins_witness :
    ∃ st2 tr,
      variorum_get_topology { Env.of_counts 4 8 8 with hwloc_topology_init := -1 } OutArgs.all
          State.after_reenter =
        .ret { nsockets := some 2, ncores := some 32, nthreads := some 64 } st2 tr ∧
      (∀ e ∈ tr, e.is_hwloc = false) := by
  have h1 := get_topology_first_ok Env.intel_ok OutArgs.null State.initial.reset_slots rfl
    (by decide)
  have e1 : variorum_enter Build.intel_only ErrCodes.sample Env.intel_ok State.initial =
      .ret 0 State.after_enter
        (variorum_enter Build.intel_only ErrCodes.sample Env.intel_ok State.initial).trace :=
    rfl
  have e2 : variorum_exit Build.intel_only Env.intel_ok State.after_enter =
      .ret 0 State.after_exit
        (variorum_exit Build.intel_only Env.intel_ok State.after_enter).trace := rfl
  have e3 : variorum_enter Build.intel_only ErrCodes.sample Env.intel_ok_4_8_8
      State.after_exit =
      .ret 0 State.after_reenter
        (variorum_enter Build.intel_only ErrCodes.sample Env.intel_ok_4_8_8
          State.after_exit).trace := rfl
  have hlater := LaterCalls.by_enter _ _ _ _ _
    (LaterCalls.by_exit _ _ _ _ (LaterCalls.of_enter h1 e1) e2) e3
  obtain ⟨-, -, -, st2, tr, h, hh, -⟩ :=
    C4_first_call_wins Env.intel_ok OutArgs.null _ State.initial.reset_slots _ _ rfl h1 _
      hlater { Env.of_counts 4 8 8 with hwloc_topology_init := -1 } OutArgs.all
  refine ⟨st2, tr, ?_, hh⟩
  rw [h]
  rfl

/-- C10: the topology probe never divides or takes a remainder by zero. In the
model every `/` and `%` of the source is checked: a zero divisor (and the
overflowing `INT_MIN / -1`) ends the call as undefined behaviour. For every
answer of the topology source, every state and every argument,
`variorum_get_topology` never ends that way, although each quotient is computed
before its divisibility test. -/
theorem C10_no_division_by_zero (env : Env) (out : OutArgs) (st : State) :
    (∀ st1 tr, variorum_get_topology env out st ≠ .undef .div_by_zero st1 tr) ∧
    (∀ u st1 tr, variorum_get_topology env out st ≠ .undef u st1 tr) :=
  ⟨fun st1 tr => get_topology_defined env out st .div_by_zero st1 tr,
    fun u st1 tr => get_topology_defined env out st u st1 tr⟩

/-! ## The claims about Enter and Exit -/

/-- C1 (the code departs from it): a failing step of `variorum_set_func_ptrs`
should abort it with that step's code and keep the later steps from running. The
code tests `err` only after `set_intel_func_ptrs`; every later assignment to `err`
overwrites the previous one. In a build with Intel and IBM, where
`set_intel_func_ptrs` returns 0, `init_msr` returns 7 and `set_ibm_func_ptrs`
returns 0, `variorum_set_func_ptrs` calls `set_ibm_func_ptrs` after the failed
`init_msr` and returns 0, and so does `variorum_enter`. -/
theorem C1_later_steps_overwrite_error :
    Build.intel_ibm.has .intel = true ∧ Build.intel_ibm.has .ibm = true ∧
    Env.init_msr_fails.set_intel_func_ptrs.status = 0 ∧
    Env.init_msr_fails.init_msr = 7 ∧
    Env.init_msr_fails.set_ibm_func_ptrs.status = 0 ∧
    (variorum_set_func_ptrs Build.intel_ibm Env.init_msr_fails State.initial).val? = some 0 ∧
    (variorum_set_func_ptrs Build.intel_ibm Env.init_msr_fails State.initial).trace =
      [.set_func_ptrs .intel, .init_msr, .set_func_ptrs .ibm] ∧
    (variorum_enter Build.intel_ibm ErrCodes.sample Env.init_msr_fails State.initial).val? =
      some 0 := by
  decide

/-- C5 (the code departs from it): detection should return
`VARIORUM_ERROR_UNSUPPORTED_ARCH` whenever no compiled vendor produced a handle.
In a build with `VARIORUM_LOG` and Intel, when `detect_intel_arch` returns `NULL`,
`variorum_detect_arch` dereferences that `NULL` handle in the `printf` of the model
code, before the test for `NULL` handles: the behaviour is undefined and nothing
is returned. -/
theorem C5_log_dereferences_null_handle :
    Build.intel_log.has .intel = true ∧ Build.intel_log.log = true ∧
    (Env.of_counts 2 32 64).detect .intel = none ∧
    ∃ st tr,
      variorum_detect_arch Build.intel_log ErrCodes.sample (Env.of_counts 2 32 64)
        State.initial = .undef .null_deref st tr :=
  ⟨rfl, rfl, rfl, _, _, rfl⟩

/-- C6 (the code departs from it): when the probe returns and no vendor produces a
handle, `variorum_enter` should return the detection error. In a build with
`VARIORUM_LOG` and Intel, when `detect_intel_arch` returns `NULL`, the probe of
`variorum_enter` returns and then `variorum_detect_arch` dereferences the `NULL`
handle: the behaviour is undefined and `variorum_enter` returns nothing. -/
theorem C6_enter_dereferences_null_handle :
    (∀ v, Build.intel_log.has v = true → (Env.of_counts 2 32 64).detect v = none) ∧
    (∃ o st1 tr,
      variorum_get_topology (Env.of_counts 2 32 64) OutArgs.null
        State.initial.reset_slots = .ret o st1 tr) ∧
    ∃ st tr,
      variorum_enter Build.intel_log ErrCodes.sample (Env.of_counts 2 32 64)
        State.initial = .undef .null_deref st tr :=
  ⟨by intro v _; cases v <;> rfl, ⟨_, _, _, rfl⟩, _, _, rfl⟩

/-- C7 as stated fails: with Intel as the only compiled vendor, detected
successfully, (1) `variorum_enter` returns 5, not 0, when `set_intel_func_ptrs`
returns 5; (2) after a successful `variorum_enter`, `variorum_exit` returns 4, not
0, and frees nothing when `finalize_msr` returns 4; (3) `variorum_enter` does not
return at all when its probe meets 3 sockets and 32 cores. -/
theorem C7_counterexample :
    (∀ w, Build.intel_only.has w = true ↔ w = .intel) ∧
    Env.intel_wiring_fails.detect .intel = some 6 ∧
    Env.intel_ok.detect .intel = some 6 ∧
    (variorum_enter Build.intel_only ErrCodes.sample Env.intel_wiring_fails
      State.initial).val? = some 5 ∧
    (variorum_enter Build.intel_only ErrCodes.sample Env.intel_ok State.initial).val? =
      some 0 ∧
    (variorum_exit Build.intel_only Env.finalize_fails
      (variorum_enter Build.intel_only ErrCodes.sample Env.intel_ok State.initial).state).val? =
      some 4 ∧
    (variorum_exit Build.intel_only Env.finalize_fails
      (variorum_enter Build.intel_only ErrCodes.sample Env.intel_ok State.initial).state).trace =
      [.finalize_msr] ∧
    (variorum_enter Build.intel_only ErrCodes.sample
      { Env.intel_ok with hwloc_get_nbobjs_by_type := (Env.of_counts 3 32 64).hwloc_get_nbobjs_by_type }
      State.initial).val? = none :=
  ⟨by intro w; cases w <;> decide, rfl, rfl, by decide, by decide, by decide, by decide,
    by decide⟩

/-- C7 (amended): with exactly one compiled vendor `v`, when the probe of
`variorum_enter` returns, `v` is detected with handle `h`, the wiring step of `v`
returns 0 and (for Intel) `init_msr` returns 0, then, whatever the table held
before, `variorum_enter` returns 0, the slots bound afterwards are exactly those
the wiring step of `v` assigns, all others are `NULL`, and the handle of `v` is
`h`, pointing to allocated storage; a subsequent `variorum_exit` in which (for
Intel) `finalize_msr` returns 0 returns 0, leaves `g_platform` as it is, and calls
`free` exactly once, on the handle of `v`, whose storage is released by it. -/
theorem C7_single_vendor_enter_exit (b : Build) (codes : ErrCodes)
    (env env2 : Env) (st : State) (v : Vendor) (h : Nat)
    (o : OutArgs) (stp : State) (tp : List Event)
    (hone : ∀ w, b.has w = true ↔ w = v)
    (hprobe : variorum_get_topology env OutArgs.null st.reset_slots = .ret o stp tp)
    (hdet : env.detect v = some h)
    (hwire : (env.wiring v).status = 0)
    (hmsr : v = .intel → env.init_msr = 0)
    (hfin : v = .intel → env2.finalize_msr = 0) :
    ∃ st1 tr,
      variorum_enter b codes env st = .ret 0 st1 tr ∧
      st1.g_platform.slots = apply_binds (env.wiring v).binds (fun _ => none) ∧
      (∀ s, st1.g_platform.slots s ≠ none ↔ s ∈ (env.wiring v).binds.map Prod.fst) ∧
      st1.g_platform.arch v = some h ∧
      ∃ st2 tr2,
        variorum_exit b env2 st1 = .ret 0 st2 tr2 ∧
        st2.g_platform = st1.g_platform ∧
        st1.arch_live v = true ∧ st2.arch_live v = false ∧
        tr2.filter Event.is_free = [Event.free v (some h)] := by
  have hslots : stp.g_platform.slots = fun _ => none := (probe_ret_frame hprobe).1
  have h1 := hone .intel
  have h2 := hone .amd
  have h3 := hone .ibm
  have h4 := hone .nvidia
  have h5 := hone .arm
  rcases b with ⟨bi, ba, bb, bn, br, bl⟩
  simp only [Build.has] at h1 h2 h3 h4 h5
  rw [enter_after_probe _ codes env st o stp tp hprobe]
  have hb : ∀ s, apply_binds (env.wiring v).binds (fun _ => none) s ≠ none ↔
      s ∈ (env.wiring v).binds.map Prod.fst := by
    intro s
    rw [apply_binds_ne_none]
    simp
  cases v <;> simp at h1 h2 h3 h4 h5 <;> (try simp [Env.detect] at hdet) <;>
    simp only [Env.detect, Env.wiring] at hdet hwire hb ⊢ <;>
    (try simp only [forall_true_left] at hmsr hfin) <;>
    subst h1 h2 h3 h4 h5 <;>
    simp [Build.log_null_deref, detect_arch_result, detected, Platform.no_arch,
      set_func_ptrs_result, set_func_ptrs_slots, wire_later, hdet, hwire, hmsr, hslots,
      exit_ok_eq, Build.handles_ok, detected_live, released, Build.has,
      Function.update_apply, hfin, Platform.arch, exit_head, exit_frees, Event.is_free] <;>
    refine ⟨fun s => by simpa using hb s, _, _, ⟨rfl, rfl⟩, rfl, ?_, ?_⟩ <;>
    (cases bl <;> simp [Event.is_free, released, Build.has])

/-- C7 (amended) on a concrete run: Intel alone, detected with handle 6; the
wiring step binds `variorum_print_power` and `variorum_print_clocks`. After
`variorum_enter` from a table in which every slot was bound, exactly those two
slots are bound, and `variorum_exit` frees handle 6. -/
theorem C7_single_vendor_enter_exit_witness :
    ∃ st1 tr,
      variorum_enter Build.intel_only ErrCodes.sample Env.intel_ok
        { State.initial with
          g_platform := { State.initial.g_platform with slots := fun _ => some 99 } } =
        .ret 0 st1 tr ∧
      (∀ s, st1.g_platform.slots s ≠ none ↔
        s = .variorum_print_power ∨ s = .variorum_print_clocks) ∧
      ∃ st2 tr2,
        variorum_exit Build.intel_only Env.intel_ok st1 = .ret 0 st2 tr2 ∧
        st2.g_platform = st1.g_platform ∧
        st1.arch_live .intel = true ∧ st2.arch_live .intel = false ∧
        tr2.filter Event.is_free = [Event.free .intel (some 6)] := by
  obtain ⟨st1, tr, h1, -, h3, -, h5⟩ :=
    C7_single_vendor_enter_exit Build.intel_only ErrCodes.sample Env.intel_ok Env.intel_ok
      { State.initial with
        g_platform := { State.initial.g_platform with slots := fun _ => some 99 } }
      .intel 6 _ _ _ (by intro w; cases w <;> decide)
      (get_topology_first_ok Env.intel_ok OutArgs.null _ rfl (by decide)) rfl rfl
      (fun _ => rfl) (fun _ => rfl)
  refine ⟨st1, tr, h1, ?_, h5⟩
  intro s
  rw [h3 s]
  simp [Env.wiring, Env.intel_ok]

/-- C8 as stated fails: `variorum_exit` does not release and return 0 in every
state. With Intel as the only compiled vendor and `finalize_msr` returning 0, a
`variorum_exit` after a successful `variorum_enter` returns 0 and frees the Intel
handle, but leaves the pointer in `g_platform.intel_arch`; a second
`variorum_exit` passes the same pointer to `free` again, which is a double free:
the behaviour is undefined and nothing is returned. -/
theorem C8_counterexample :
    Env.intel_ok.finalize_msr = 0 ∧
    (variorum_enter Build.intel_only ErrCodes.sample Env.intel_ok State.initial).val? =
      some 0 ∧
    (variorum_exit Build.intel_only Env.intel_ok
      (variorum_enter Build.intel_only ErrCodes.sample Env.intel_ok State.initial).state).val? =
      some 0 ∧
    (variorum_exit Build.intel_only Env.intel_ok
      (variorum_exit Build.intel_only Env.intel_ok
        (variorum_enter Build.intel_only ErrCodes.sample Env.intel_ok
          State.initial).state).state).val? = none ∧
    ∃ st tr,
      variorum_exit Build.intel_only Env.intel_ok
        (variorum_exit Build.intel_only Env.intel_ok
          (variorum_enter Build.intel_only ErrCodes.sample Env.intel_ok
            State.initial).state).state = .undef .double_free st tr :=
  ⟨rfl, by decide, by decide, by decide, _, _, rfl⟩

/-- C8 (amended): `variorum_exit` finalizes, then releases. With Intel compiled in
and `finalize_msr` returning a non-zero code, in every state, it returns that code
after the call of `finalize_msr`, calls `free` not at all and changes nothing.
Otherwise (the hook returns 0, or Intel and with it the only hook is not compiled
in), in every state in which no handle of a compiled vendor has been released
already (each is `NULL` or points to allocated storage), it returns 0 after
calling, behind the hook, `free` exactly once on the handle member of every
compiled vendor and on no other; `g_platform` is left as it is and the storage of
the compiled vendors is released. -/
theorem C8_exit_finalizes_then_releases (b : Build) (env : Env) (st : State) :
    (b.with_intel = true ∧ env.finalize_msr ≠ 0 →
      variorum_exit b env st = .ret env.finalize_msr st (exit_head b)) ∧
    (¬ (b.with_intel = true ∧ env.finalize_msr ≠ 0) → b.handles_ok st →
      variorum_exit b env st =
        .ret 0 { st with arch_live := released b st.arch_live }
          (exit_head b ++ exit_frees b st.g_platform)) ∧
    (∀ e ∈ exit_head b, e.is_free = false) ∧
    (b.with_intel = true → (exit_head b).getLast? = some Event.finalize_msr) ∧
    (b.with_intel = false → Event.finalize_msr ∉ exit_head b) ∧
    (∀ v, (exit_frees b st.g_platform).filter (Event.is_free_of v) =
      if b.has v then [Event.free v (st.g_platform.arch v)] else []) ∧
    (∀ e ∈ exit_frees b st.g_platform, e.is_free = true) ∧
    (∀ v, b.has v = true → released b st.arch_live v = false) ∧
    (∀ v, b.has v = false → released b st.arch_live v = st.arch_live v) := by
  refine ⟨(exit_eq b env st).1, (exit_eq b env st).2.1, ?_, ?_, ?_, ?_, ?_, ?_, ?_⟩
  · intro e he
    simp only [exit_head, List.mem_append] at he
    rcases he with he | he <;> split_ifs at he <;> simp at he <;> subst he <;> rfl
  · intro hi
    simp only [exit_head, hi, if_true]
    split_ifs <;> rfl
  · intro hi
    simp only [exit_head, hi, Bool.false_eq_true, if_false, List.append_nil]
    split_ifs <;> simp
  · intro v
    rcases b with ⟨bi, ba, bb, bn, br, bl⟩
    cases v <;> cases bi <;> cases ba <;> cases bb <;> cases bn <;> cases br <;>
      simp [exit_frees, Event.is_free_of, Build.has, Platform.arch]
  · intro e he
    simp only [exit_frees, List.mem_append] at he
    rcases he with (((he | he) | he) | he) | he <;> split_ifs at he <;> simp at he <;>
      subst he <;> rfl
  · intro v hv
    simp [released, hv]
  · intro v hv
    simp [released, hv]

/-- C8 (amended) on a concrete run: Intel alone; after a successful
`variorum_enter`, `variorum_exit` with `finalize_msr` returning 0 returns 0, calls
`finalize_msr` and then `free` on the Intel handle 6, whose storage is released. -/
theorem C8_exit_finalizes_then_releases_witness :
    ∃ st2,
      variorum_exit Build.intel_only Env.intel_ok
        (variorum_enter Build.intel_only ErrCodes.sample Env.intel_ok State.initial).state =
        .ret 0 st2 [.finalize_msr, .free .intel (some 6)] ∧
      st2.arch_live .intel = false :=
  ⟨_, (C8_exit_finalizes_then_releases Build.intel_only Env.intel_ok
      (variorum_enter Build.intel_only ErrCodes.sample Env.intel_ok State.initial).state).2.1
      (by decide) (by decide), by decide⟩

/-- C9: `init_msr` runs strictly after the Intel slots are wired. Wherever
`init_msr` occurs in the calls of `variorum_set_func_ptrs`, Intel is compiled in,
`set_intel_func_ptrs` returned 0, and what precedes it is exactly the call of
`set_intel_func_ptrs`; it occurs at most once. Wherever it occurs in the calls of
`variorum_enter`, it occurs once, the table reset `variorum_init_func_ptrs`
precedes it, the probe returned, `variorum_detect_arch` returned 0, and what
precedes it is exactly the calls before the probe, those of the probe, those of
the detection, and the call of `set_intel_func_ptrs`. -/
theorem C9_init_msr_after_wiring (b : Build) (codes : ErrCodes)
    (env : Env) (st : State) :
    (∀ pre post,
      (variorum_set_func_ptrs b env st).trace = pre ++ Event.init_msr :: post →
        b.with_intel = true ∧ env.set_intel_func_ptrs.status = 0 ∧
        pre = [Event.set_func_ptrs .intel] ∧ Event.init_msr ∉ post) ∧
    (∀ pre post,
      (variorum_enter b codes env st).trace = pre ++ Event.init_msr :: post →
        b.with_intel = true ∧ env.set_intel_func_ptrs.status = 0 ∧
        Event.init_msr ∉ pre ∧ Event.init_msr ∉ post ∧
        Event.variorum_init_func_ptrs ∈ pre ∧
        ∃ o st1 t1 st2 t2,
          variorum_get_topology env OutArgs.null st.reset_slots = .ret o st1 t1 ∧
          variorum_detect_arch b codes env st1 = .ret 0 st2 t2 ∧
          pre = enter_head b ++ t1 ++ t2 ++ [Event.set_func_ptrs .intel]) := by
  constructor
  · intro pre post h
    rw [set_func_ptrs_eq] at h
    obtain ⟨h1, h2, h3, h4⟩ := set_func_ptrs_calls_split b env pre post h
    exact ⟨h1, h2, h3, h4 ▸ wire_later_calls_no_init_msr b⟩
  · intro pre post h
    have hpw := probe_trace_no_wiring env OutArgs.null st.reset_slots
    rcases hp : variorum_get_topology env OutArgs.null st.reset_slots with
      ⟨o, st1, t1⟩ | ⟨c, st1, t1⟩ | ⟨u, st1, t1⟩
    · rw [hp] at hpw
      simp only [Outcome.trace] at hpw
      rw [enter_after_probe b codes env st o st1 t1 hp] at h
      have hA : ∀ e ∈ enter_head b ++ t1, e.is_wiring = false := by
        intro e he
        rcases List.mem_append.mp he with he | he
        · exact enter_head_no_wiring b e he
        · exact hpw e he
      by_cases hnd : b.log_null_deref env
      · exfalso
        rw [if_pos hnd] at h
        simp only [Outcome.trace] at h
        have hm : Event.init_msr ∈
            enter_head b ++ t1 ++ detect_arch_calls_undef b env := by
          rw [h]; simp
        refine no_init_msr_of_no_wiring ?_ hm
        intro e he
        rcases List.mem_append.mp he with he | he
        · exact hA e he
        · exact detect_arch_calls_undef_no_wiring b env e he
      · rw [if_neg hnd] at h
        have hB : ∀ e ∈ enter_head b ++ t1 ++ detect_arch_calls b codes env st1.g_platform,
            e.is_wiring = false := by
          intro e he
          rcases List.mem_append.mp he with he | he
          · exact hA e he
          · exact detect_arch_calls_no_wiring b codes env _ e he
        by_cases hd : detect_arch_result b codes env st1.g_platform = 0
        · simp only [hd, ne_eq, not_true_eq_false, if_false, Outcome.trace] at h
          have hH : Event.init_msr ∉
              (if set_func_ptrs_result b env ≠ 0 then
                [Event.getenv_hostname,
                 Event.variorum_error_handler .cannot_set_function_pointers
                   (set_func_ptrs_result b env)]
               else []) := by
            split_ifs <;> simp
          rcases set_func_ptrs_calls_cases b env with ⟨hi, hs, hc⟩ | hno
          · rw [hc] at h
            have hsplit := unique_split Event.init_msr
              (enter_head b ++ t1 ++ detect_arch_calls b codes env st1.g_platform ++
                [Event.set_func_ptrs .intel])
              (wire_later_calls b ++
                (if set_func_ptrs_result b env ≠ 0 then
                  [Event.getenv_hostname,
                   Event.variorum_error_handler .cannot_set_function_pointers
                     (set_func_ptrs_result b env)]
                 else []))
              pre post
              (by
                intro hm
                rcases List.mem_append.mp hm with hm | hm
                · exact no_init_msr_of_no_wiring hB hm
                · simp at hm)
              (by
                intro hm
                rcases List.mem_append.mp hm with hm | hm
                · exact wire_later_calls_no_init_msr b hm
                · exact hH hm)
              (by simpa using h)
            obtain ⟨hpre, hpost⟩ := hsplit
            refine ⟨hi, hs, ?_, ?_, ?_, o, st1, t1,
              { st1 with g_platform := detected b env st1.g_platform
                         arch_live := detected_live b env st1.arch_live },
              detect_arch_calls b codes env st1.g_platform, rfl, ?_, hpre⟩
            · rw [hpre]
              intro hm
              rcases List.mem_append.mp hm with hm | hm
              · exact no_init_msr_of_no_wiring hB hm
              · simp at hm
            · rw [hpost]
              intro hm
              rcases List.mem_append.mp hm with hm | hm
              · exact wire_later_calls_no_init_msr b hm
              · exact hH hm
            · rw [hpre]
              simp [enter_head]
            · rw [detect_arch_eq b codes env st1 hnd, hd]
          · exfalso
            have hm : Event.init_msr ∈
                enter_head b ++ t1 ++ detect_arch_calls b codes env st1.g_platform ++
                  set_func_ptrs_calls b env ++
                  (if set_func_ptrs_result b env ≠ 0 then
                    [Event.getenv_hostname,
                     Event.variorum_error_handler .cannot_set_function_pointers
                       (set_func_ptrs_result b env)]
                   else []) := by
              rw [h]; simp
            rcases List.mem_append.mp hm with hm | hm
            · rcases List.mem_append.mp hm with hm | hm
              · exact no_init_msr_of_no_wiring hB hm
              · exact hno hm
            · exact hH hm
        · exfalso
          rw [if_pos hd] at h
          simp only [Outcome.trace] at h
          have hm : Event.init_msr ∈
              enter_head b ++ t1 ++ detect_arch_calls b codes env st1.g_platform ++
                [Event.getenv_hostname,
                 Event.variorum_error_handler .cannot_detect_architecture
                   (detect_arch_result b codes env st1.g_platform)] := by
            rw [h]; simp
          rcases List.mem_append.mp hm with hm | hm
          · exact no_init_msr_of_no_wiring hB hm
          · simp at hm
    · exfalso
      rw [hp] at hpw
      rw [enter_probe_exited b codes env st c st1 t1 hp] at h
      simp only [Outcome.trace] at h hpw
      have hm : Event.init_msr ∈ enter_head b ++ t1 := by
        rw [h]; simp
      rcases List.mem_append.mp hm with hm | hm
      · exact no_init_msr_of_no_wiring (enter_head_no_wiring b) hm
      · exact no_init_msr_of_no_wiring hpw hm
    · exact absurd hp (get_topology_defined env _ _ u st1 t1)

/-- C9 on a concrete run where `init_msr` does occur: Intel alone, detected and
wired. -/
theorem C9_init_msr_after_wiring_witness :
    (variorum_enter Build.intel_only ErrCodes.sample Env.intel_ok State.initial).trace =
      ([.variorum_init_func_ptrs] ++ probe_calls ++ [.detect_arch .intel] ++
        [.set_func_ptrs .intel]) ++ Event.init_msr :: [] ∧
    Event.variorum_init_func_ptrs ∈
      ([.variorum_init_func_ptrs] ++ probe_calls ++ [.detect_arch .intel] ++
        [Event.set_func_ptrs .intel]) ∧
    Env.intel_ok.set_intel_func_ptrs.status = 0 :=
  have h := (C9_init_msr_after_wiring Build.intel_only ErrCodes.sample Env.intel_ok
    State.initial).2
    ([.variorum_init_func_ptrs] ++ probe_calls ++ [.detect_arch .intel] ++
      [.set_func_ptrs .intel]) [] (by decide)
  ⟨by decide, h.2.2.2.2.1, h.2.1⟩

end Variorum
